import Mathlib

/-!
Verification of the SacUltraCrew Strava OAuth + webhook proxy (src/index.js).

The development shallowly embeds the parts of the program that the checked
properties concern: the JavaScript value domain observed in spreadsheet cells
and webhook payloads, the tolerant id comparison, the `Date`-based derived
fields of the row mappers, the spreadsheet tab helpers, the token-refresh
helper, the activity create/update/delete processors, and the in-memory
webhook queue with its drain loop.

Modelling conventions, stated once:
* Spreadsheet tabs are lists of rows; a row is a list of `JsVal` cells.  A tab
  that does not exist in the spreadsheet is `none`.  A cell beyond the end of
  a row reads back as `undefined` (`JsVal.undef`).
* JavaScript numbers are modelled as exact decimal rationals `mant / 10^exp`
  (`Dec` below).  All numeric values the checked properties touch (activity
  ids, unix timestamps, distances, hours, scientific-notation cell renderings)
  are exactly representable as 64-bit floats and as such decimals, so no
  rounding is modelled.  Numeric comparisons go through `Dec.numEq`/`Dec.numLe`
  (value comparison), never through representation equality.
* The process-local timezone is taken to be UTC (the code runs on a UTC
  server), so the `Date` local accessors coincide with the UTC field values.
* Calls to the Google Sheets API are modelled as always succeeding; the
  fallible external calls (Strava activity fetch, token refresh exchange) are
  oracles in an `Env` record, `none` meaning the call throws/fails.
-/

namespace StravaProxy

/-- Exact decimal numbers, `mant / 10 ^ exp`.  This is the value domain of
the JS numbers the program manipulates; the representation is not kept
normalised, and all value-level comparisons are by cross multiplication. -/
structure Dec where
  mant : Int
  exp : Nat
deriving DecidableEq, Repr

namespace Dec

/-- The decimal with integer value `n`. -/
def ofInt (n : Int) : Dec := ⟨n, 0⟩

/-- Value equality (the JS `===` on numbers). -/
def numEq (a b : Dec) : Bool :=
  a.mant * (10 : Int) ^ b.exp = b.mant * (10 : Int) ^ a.exp

/-- Value order `a <= b`. -/
def numLe (a b : Dec) : Bool :=
  a.mant * (10 : Int) ^ b.exp ≤ b.mant * (10 : Int) ^ a.exp

/-- Value order `a < b`. -/
def numLt (a b : Dec) : Bool :=
  a.mant * (10 : Int) ^ b.exp < b.mant * (10 : Int) ^ a.exp

/-- Exact subtraction. -/
def sub (a b : Dec) : Dec :=
  ⟨a.mant * (10 : Int) ^ b.exp - b.mant * (10 : Int) ^ a.exp, a.exp + b.exp⟩

/-- Strip factors of ten from the representation (recursion on the
exponent). -/
def norm : Int → Nat → Dec
  | m, 0 => ⟨m, 0⟩
  | m, e + 1 => if m % 10 = 0 then norm (m / 10) e else ⟨m, e + 1⟩

/-- Multiply by `10 ^ E` for a signed exponent `E`. -/
def scale (d : Dec) (E : Int) : Dec :=
  if 0 ≤ E then
    let k := E.toNat
    if k ≤ d.exp then ⟨d.mant, d.exp - k⟩ else ⟨d.mant * (10 : Int) ^ (k - d.exp), 0⟩
  else ⟨d.mant, d.exp + E.natAbs⟩

end Dec

/-- JavaScript values as they occur in webhook payloads and sheet cells. -/
inductive JsVal where
  | str (s : String)
  | num (q : Dec)
  | bool (b : Bool)
  | null
  | undef
deriving DecidableEq, Repr

/-- Rendering of a JS number by `String(...)`: integer-valued numbers print
their decimal digits.  Non-integer decimals are given an `e-` rendering, an
approximation of the JS decimal expansion; no checked property depends on the
rendering of a non-integer number. -/
def decToJsString (q : Dec) : String :=
  let n := Dec.norm q.mant q.exp
  let digits := if n.mant < 0 then "-" ++ toString n.mant.natAbs else toString n.mant.natAbs
  if n.exp = 0 then digits else digits ++ "e-" ++ toString n.exp

/-- The JS `String(v)` conversion. -/
def jsValToString : JsVal → String
  | .str s => s
  | .num q => decToJsString q
  | .bool b => if b then "true" else "false"
  | .null => "null"
  | .undef => "undefined"

/-- JS truthiness of a value. -/
def jsTruthy : JsVal → Bool
  | .str s => s ≠ ""
  | .num q => q.mant ≠ 0
  | .bool b => b
  | .null => false
  | .undef => false

/-- The JS expression `a || b`. -/
def jsOr (a b : JsVal) : JsVal := if jsTruthy a then a else b

/-- Numeric value of a list of decimal digit characters. -/
def digitsVal (ds : List Char) : Nat :=
  ds.foldl (fun a c => 10 * a + (c.toNat - 48)) 0

/-- The JS `String.prototype.trim`, dropping leading and trailing
whitespace. -/
def strTrim (s : String) : String :=
  String.mk (((s.data.dropWhile Char.isWhitespace).reverse.dropWhile
    Char.isWhitespace).reverse)

/-- The JS `Number(s)` conversion on an already-trimmed string, restricted to
the decimal and scientific forms that occur in sheet cells (the source's
comment names `"15538647680"`, `15538647680` and `"1.553864768e+10"`).
`none` is NaN.  Hex, `Infinity`, and float rounding are not modelled; no
checked property depends on them. -/
def jsNum (s : String) : Option Dec :=
  let cs := s.data
  if cs.isEmpty then some (Dec.ofInt 0)
  else
    let sgn : Int × List Char :=
      match cs with
      | '-' :: r => (-1, r)
      | '+' :: r => (1, r)
      | r => (1, r)
    let ip := sgn.2.takeWhile Char.isDigit
    let cs₂ := sgn.2.dropWhile Char.isDigit
    let fp :=
      match cs₂ with
      | '.' :: r => r.takeWhile Char.isDigit
      | _ => []
    let cs₃ :=
      match cs₂ with
      | '.' :: r => r.dropWhile Char.isDigit
      | r => r
    if ip.isEmpty ∧ fp.isEmpty then none
    else
      let mant : Dec := ⟨sgn.1 * (digitsVal (ip ++ fp) : Int), fp.length⟩
      match cs₃ with
      | [] => some mant
      | e :: r =>
        if e = 'e' ∨ e = 'E' then
          let esgn : Int × List Char :=
            match r with
            | '-' :: r₂ => (-1, r₂)
            | '+' :: r₂ => (1, r₂)
            | r₂ => (1, r₂)
          let ed := esgn.2.takeWhile Char.isDigit
          let rest := esgn.2.dropWhile Char.isDigit
          if ed.isEmpty ∨ ¬ rest.isEmpty then none
          else some (mant.scale (esgn.1 * (digitsVal ed : Int)))
        else none

/-- The source's tolerant id equality (`idsEqual`): `a == null` checks, exact
string equality after trimming, else numeric comparison when both sides parse
as numbers. -/
def idsEqual (a b : JsVal) : Bool :=
  if a = .null ∨ a = .undef ∨ b = .null ∨ b = .undef then false
  else
    let sa := strTrim (jsValToString a)
    let sb := strTrim (jsValToString b)
    if sa = sb then true
    else
      match jsNum sa, jsNum sb with
      | some na, some nb => na.numEq nb
      | _, _ => false

/-! ### The JS `Date` operations used by the row mappers

The mappers use `new Date(start_date_local)`, `getHours`, `getDay`,
`getDate`/`setDate`, `setHours(0,0,0,0)`, `getFullYear`, `getMonth` and
`toISOString`.  With the process timezone fixed to UTC these reduce to civil
calendar arithmetic, modelled with the standard days-from-civil conversion
(integer divisions below are C-style truncating divisions on non-negative
operands, matching Lean's `Int` division). -/

/-- Calendar date plus time-of-day, as parsed from an ISO local timestamp. -/
structure DateTime where
  year : Nat
  month : Nat
  day : Nat
  hour : Nat
  minute : Nat
  second : Nat
deriving DecidableEq, Repr

/-- Days since 1970-01-01 of the civil date `(y, m, d)`.  The day number `d`
enters additively, which also models `setDate` with out-of-range day values. -/
def daysFromCivil (y : Int) (m : Nat) (d : Int) : Int :=
  let y' : Int := if m ≤ 2 then y - 1 else y
  let era : Int := (if 0 ≤ y' then y' else y' - 399) / 400
  let yoe : Int := y' - era * 400
  let mp : Nat := (m + 9) % 12
  let doy : Int := ((153 * mp + 2) / 5 : Nat) + d - 1
  let doe : Int := yoe * 365 + yoe / 4 - yoe / 100 + doy
  era * 146097 + doe - 719468

/-- Civil date `(y, m, d)` of a days-since-epoch number. -/
def civilFromDays (z₀ : Int) : Int × Nat × Nat :=
  let z : Int := z₀ + 719468
  let era : Int := (if 0 ≤ z then z else z - 146096) / 146097
  let doe : Int := z - era * 146097
  let yoe : Int := (doe - doe / 1460 + doe / 36524 - doe / 146096) / 365
  let y : Int := yoe + era * 400
  let doy : Int := doe - (365 * yoe + yoe / 4 - yoe / 100)
  let mp : Int := (5 * doy + 2) / 153
  let d : Int := doy - (153 * mp + 2) / 5 + 1
  let m : Int := mp + (if mp < 10 then 3 else -9)
  ((if m ≤ 2 then y + 1 else y), m.toNat, d.toNat)

/-- Day of week (0 = Sunday), as returned by `Date.prototype.getDay`;
1970-01-01 was a Thursday. -/
def dayOfWeek (days : Int) : Int := (days + 4) % 7

/-- Zero-padded two-digit rendering, as `String(n).padStart(2, '0')`. -/
def pad2 (n : Nat) : String := if n < 10 then "0" ++ toString n else toString n

/-- Year rendering of `toISOString`: four digits for 0..9999, otherwise the
expanded six-digit signed form. -/
def isoYearStr (y : Int) : String :=
  if 0 ≤ y ∧ y ≤ 9999 then
    let s := toString y.toNat
    String.mk (List.replicate (4 - s.length) '0') ++ s
  else if y < 0 then
    let s := toString y.natAbs
    "-" ++ String.mk (List.replicate (6 - s.length) '0') ++ s
  else
    let s := toString y.toNat
    "+" ++ String.mk (List.replicate (6 - s.length) '0') ++ s

/-- The date part of `toISOString` (the code takes `.split('T')[0]`). -/
def isoDateString (z : Int) : String :=
  match civilFromDays z with
  | (y, m, d) => isoYearStr y ++ "-" ++ pad2 m ++ "-" ++ pad2 d

def isLeapYear (y : Nat) : Bool :=
  y % 4 = 0 && (y % 100 ≠ 0 || y % 400 = 0)

def daysInMonth (y m : Nat) : Nat :=
  if m = 2 then (if isLeapYear y then 29 else 28)
  else if m = 4 ∨ m = 6 ∨ m = 9 ∨ m = 11 then 30 else 31

/-- Two decimal digit characters to a number. -/
def d2 (a b : Char) : Option Nat :=
  if a.isDigit && b.isDigit then some (10 * (a.toNat - 48) + (b.toNat - 48)) else none

/-- Four decimal digit characters to a number. -/
def d4 (a b c d : Char) : Option Nat :=
  match d2 a b, d2 c d with
  | some hi, some lo => some (100 * hi + lo)
  | _, _ => none

/-- Allowed tails after the seconds field: nothing, `Z`, or milliseconds with
an optional `Z`. -/
def validIsoTail : List Char → Bool
  | [] => true
  | ['Z'] => true
  | '.' :: a :: b :: c :: rest =>
      a.isDigit && b.isDigit && c.isDigit && (rest = [] || rest = ['Z'])
  | _ => false

/-- Parse of the ISO timestamp format `YYYY-MM-DDTHH:MM:SS` (optional
milliseconds and `Z`) used by the platform's `start_date_local` fields;
`none` is an Invalid Date.  Other input formats accepted by the JS `Date`
constructor do not occur and are treated as invalid. -/
def parseDateTime (s : String) : Option DateTime :=
  match s.data with
  | y1 :: y2 :: y3 :: y4 :: '-' :: m1 :: m2 :: '-' :: dd1 :: dd2 :: 'T' ::
    h1 :: h2 :: ':' :: n1 :: n2 :: ':' :: s1 :: s2 :: rest =>
    match d4 y1 y2 y3 y4, d2 m1 m2, d2 dd1 dd2, d2 h1 h2, d2 n1 n2, d2 s1 s2 with
    | some y, some mo, some da, some h, some mi, some se =>
      if validIsoTail rest && 1 ≤ mo && mo ≤ 12 && 1 ≤ da && da ≤ daysInMonth y mo
          && h ≤ 23 && mi ≤ 59 && se ≤ 59 then
        some ⟨y, mo, da, h, mi, se⟩
      else none
    | _, _, _, _, _, _ => none
  | _ => none

/-- The `new Date(v)` conversion as used by the mappers: a string is parsed as
an ISO timestamp, anything else yields an Invalid Date (the API delivers the
timestamp fields as strings). -/
def jsDateParse : JsVal → Option DateTime
  | .str s => parseDateTime s
  | _ => none

/-! ### Sheet schema and row mappers (source: `ACTIVITIES_HEADERS`,
`EFFORTS_HEADERS`, `mapActivityRow`, `mapEffortRow`) -/

def ACTIVITIES_HEADERS : List String :=
  ["activity_id", "athlete_id", "athlete_name", "name", "sport_type",
   "distance_m", "moving_time_s", "elapsed_time_s", "total_elev_gain_m",
   "start_date", "start_date_local", "timezone", "utc_offset_sec",
   "start_lat", "start_lng", "gear_id",
   "avg_speed_m_s", "max_speed_m_s",
   "has_heartrate", "avg_heartrate", "max_heartrate", "suffer_score",
   "kudos_count", "comment_count", "achievement_count",
   "visibility", "is_trainer", "is_commute",
   "device_name", "map_polyline", "created_at",
   "is_night_run", "is_5k_plus", "local_hour", "week_start", "month",
   "efforts_scanned"]

def EFFORTS_HEADERS : List String :=
  ["activity_id", "athlete_id", "segment_id", "segment_name",
   "elapsed_time_s", "moving_time_s",
   "start_date", "start_date_local",
   "pr_rank", "kom_rank", "distance_m",
   "average_grade", "elev_high_m", "elev_low_m",
   "segment_start_lat", "segment_start_lng",
   "segment_end_lat", "segment_end_lng",
   "week_start", "month"]

/-- The JS `Number(v)` coercion (`none` is NaN). -/
def toNumber : JsVal → Option Dec
  | .num q => some q
  | .bool b => some (Dec.ofInt (if b then 1 else 0))
  | .null => some (Dec.ofInt 0)
  | .undef => none
  | .str s => jsNum (strTrim s)

/-- The JS comparison `x >= c` for a constant number `c` (NaN compares
false). -/
def jsGeConst (x : JsVal) (c : Int) : Bool :=
  match toNumber x with
  | some d => (Dec.ofInt c).numLe d
  | none => false

/-- A segment object inside a segment effort.  Fields default to `undefined`
so that absent payload fields need not be spelled out. -/
structure Segment where
  id : JsVal := .undef
  name : JsVal := .undef
  distance : JsVal := .undef
  average_grade : JsVal := .undef
  elevation_high : JsVal := .undef
  elevation_low : JsVal := .undef
  start_latlng : Option (List JsVal) := none
  end_latlng : Option (List JsVal) := none
deriving DecidableEq, Repr

/-- A segment effort of a detailed activity. -/
structure Effort where
  elapsed_time : JsVal := .undef
  moving_time : JsVal := .undef
  start_date : JsVal := .undef
  start_date_local : JsVal := .undef
  pr_rank : JsVal := .undef
  kom_rank : JsVal := .undef
  segment : Option Segment := none
deriving DecidableEq, Repr

/-- A detailed activity as returned by the activities endpoint.  `map` is
`some p` when the activity has a map object with summary polyline `p`
(objects are truthy); `none` models an absent/null map. -/
structure Activity where
  id : JsVal := .undef
  name : JsVal := .undef
  sport_type : JsVal := .undef
  distance : JsVal := .undef
  moving_time : JsVal := .undef
  elapsed_time : JsVal := .undef
  total_elevation_gain : JsVal := .undef
  start_date : JsVal := .undef
  start_date_local : JsVal := .undef
  timezone : JsVal := .undef
  utc_offset : JsVal := .undef
  start_latlng : Option (List JsVal) := none
  gear_id : JsVal := .undef
  average_speed : JsVal := .undef
  max_speed : JsVal := .undef
  has_heartrate : JsVal := .undef
  average_heartrate : JsVal := .undef
  max_heartrate : JsVal := .undef
  suffer_score : JsVal := .undef
  kudos_count : JsVal := .undef
  comment_count : JsVal := .undef
  achievement_count : JsVal := .undef
  visibility : JsVal := .undef
  trainer : JsVal := .undef
  commute : JsVal := .undef
  device_name : JsVal := .undef
  map : Option JsVal := none
  created_at : JsVal := .undef
  segment_efforts : List Effort := []
deriving DecidableEq, Repr

/-- The JS expression `x && x[i]` for a possibly-absent array `x` (arrays,
including empty ones, are truthy; out-of-range indexing is `undefined`). -/
def latlngAt (x : Option (List JsVal)) (i : Nat) : JsVal :=
  match x with
  | none => .undef
  | some l => (l.get? i).getD JsVal.undef

/-- The JS expression `a.map && a.map.summary_polyline`. -/
def mapPolyline (m : Option JsVal) : JsVal :=
  match m with
  | none => .undef
  | some p => p

/-- Derived week-start/month values shared by both mappers: `getDay`,
`setDate(getDate() - getDay())`, `setHours(0,0,0,0)`, `toISOString`,
`getFullYear`/`getMonth`. -/
def weekStartString (dt : DateTime) : String :=
  let dow := dayOfWeek (daysFromCivil (dt.year : Int) dt.month (dt.day : Int))
  isoDateString (daysFromCivil (dt.year : Int) dt.month ((dt.day : Int) - dow))

def monthString (dt : DateTime) : String :=
  toString dt.year ++ "-" ++ pad2 dt.month

/-- The source's `mapActivityRow`.  `none` models the `RangeError` that
`toISOString` raises on an Invalid Date, which the callers catch. -/
def mapActivityRow (athleteName athleteId : JsVal) (a : Activity) :
    Option (List JsVal) :=
  match jsDateParse a.start_date_local with
  | none => none
  | some dt =>
    let localHour := dt.hour
    let isNight : Bool := 22 ≤ localHour
    let is5k : Bool := jsGeConst (jsOr a.distance (.num (Dec.ofInt 0))) 5000
    some
      [a.id,
       athleteId,
       jsOr athleteName (.str ""),
       jsOr a.name (.str ""),
       jsOr a.sport_type (.str ""),
       jsOr a.distance (.str ""),
       jsOr a.moving_time (.str ""),
       jsOr a.elapsed_time (.str ""),
       jsOr a.total_elevation_gain (.str ""),
       jsOr a.start_date (.str ""),
       jsOr a.start_date_local (.str ""),
       jsOr a.timezone (.str ""),
       jsOr a.utc_offset (.str ""),
       jsOr (latlngAt a.start_latlng 0) (.str ""),
       jsOr (latlngAt a.start_latlng 1) (.str ""),
       jsOr a.gear_id (.str ""),
       jsOr a.average_speed (.str ""),
       jsOr a.max_speed (.str ""),
       .bool (jsTruthy a.has_heartrate),
       jsOr a.average_heartrate (.str ""),
       jsOr a.max_heartrate (.str ""),
       jsOr a.suffer_score (.str ""),
       jsOr a.kudos_count (.str ""),
       jsOr a.comment_count (.str ""),
       jsOr a.achievement_count (.str ""),
       jsOr a.visibility (.str ""),
       jsOr a.trainer (.str ""),
       jsOr a.commute (.str ""),
       jsOr a.device_name (.str ""),
       jsOr (mapPolyline a.map) (.str ""),
       jsOr a.created_at (.str ""),
       .bool isNight,
       .bool is5k,
       .num (Dec.ofInt localHour),
       .str (weekStartString dt),
       .str (monthString dt),
       .bool true]

/-- The source's `mapEffortRow` (same Invalid Date convention). -/
def mapEffortRow (athleteId : JsVal) (act : Activity) (e : Effort) :
    Option (List JsVal) :=
  match jsDateParse e.start_date_local with
  | none => none
  | some dt =>
    let s := e.segment.getD {}
    some
      [act.id,
       athleteId,
       jsOr s.id (.str ""),
       jsOr s.name (.str ""),
       jsOr e.elapsed_time (.str ""),
       jsOr e.moving_time (.str ""),
       jsOr e.start_date (.str ""),
       jsOr e.start_date_local (.str ""),
       jsOr e.pr_rank (.str ""),
       jsOr e.kom_rank (.str ""),
       jsOr s.distance (.str ""),
       jsOr s.average_grade (.str ""),
       jsOr s.elevation_high (.str ""),
       jsOr s.elevation_low (.str ""),
       jsOr (latlngAt s.start_latlng 0) (.str ""),
       jsOr (latlngAt s.start_latlng 1) (.str ""),
       jsOr (latlngAt s.end_latlng 0) (.str ""),
       jsOr (latlngAt s.end_latlng 1) (.str ""),
       .str (weekStartString dt),
       .str (monthString dt)]

/-! ### Spreadsheet tabs as a row store (source: the sheet helper section) -/

/-- A sheet row; cells beyond the row's length are `undefined`. -/
abbrev Row := List JsVal

/-- A sheet tab, the header row included at index 0. -/
abbrev Tab := List Row

/-- The four tabs of the spreadsheet; `none` means the tab does not exist. -/
structure Store where
  activities : Option Tab := none
  segment_efforts : Option Tab := none
  athletes : Option Tab := none
  inbox : Option Tab := none
deriving DecidableEq, Repr

/-- Reading cell `i` of a row (`row[i]`). -/
def cellAt (r : Row) (i : Nat) : JsVal := (r.get? i).getD JsVal.undef

/-- The header rows the source installs on tab creation. -/
def actHeadersRow : Row := ACTIVITIES_HEADERS.map .str

def effHeadersRow : Row := EFFORTS_HEADERS.map .str

def athletesHeadersRow : Row :=
  ["athlete_id", "athlete_name", "access_token", "refresh_token", "expires_at"].map .str

/-- The source's `ensureTabWithHeaders`: a missing tab is created containing
only the header row; an existing tab is left untouched (its headers are not
checked or rewritten). -/
def ensureTabWithHeaders (t : Option Tab) (headers : Row) : Tab :=
  match t with
  | none => [headers]
  | some rows => rows

/-- The source's `readColumnA`: the values of column A from row 2 down,
stringified (a missing tab reads as empty via the `.catch`). -/
def readColumnA (t : Option Tab) : List String :=
  match t with
  | none => []
  | some rows => ((rows.drop 1).filterMap (fun r => r.head?)).map jsValToString

/-- The source's `getHeaderIndex`: index of the first header cell whose
trimmed string equals the trimmed header name (`none` is the `-1` result). -/
def getHeaderIndex (t : Tab) (headerName : String) : Option Nat :=
  (t.headD []).findIdx? (fun h => strTrim (jsValToString h) = strTrim headerName)

/-- The scan loop of `findRowIndicesByHeader`: indices (starting at `i`) of
the rows whose cell in column `c` tolerantly equals `v`. -/
def scanMatches (c : Nat) (v : JsVal) : List Row → Nat → List Nat
  | [], _ => []
  | r :: rest, i => (if idsEqual (cellAt r c) v then [i] else []) ++ scanMatches c v rest (i + 1)

/-- The source's `findRowIndicesByHeader`: 1-based sheet row indices of all
data rows matching `v` in the column of `headerName` (empty when the header
is absent). -/
def findRowIndicesByHeader (t : Tab) (headerName : String) (v : JsVal) : List Nat :=
  match getHeaderIndex t headerName with
  | none => []
  | some c => scanMatches c v (t.drop 1) 2

/-- One pass of insertion into a descending list, modelling the JS
`sort((a, b) => b - a)` comparator. -/
def insertDesc (x : Nat) : List Nat → List Nat
  | [] => [x]
  | y :: ys => if y ≤ x then x :: y :: ys else y :: insertDesc x ys

/-- Sorting row indices descending before batch deletion. -/
def sortDesc (l : List Nat) : List Nat := l.foldr insertDesc []

/-- The source's `deleteRows`: no-op on an empty index list, otherwise the
batch of `deleteDimension` requests, applied in descending index order.  Each
request removes the (1-based) row `i`, i.e. position `i - 1` of the tab. -/
def deleteRows (t : Tab) (rowIndices1Based : List Nat) : Tab :=
  if rowIndices1Based.isEmpty then t
  else (sortDesc rowIndices1Based).foldl (fun acc i => acc.eraseIdx (i - 1)) t

/-- Replace element `i` of a list, leaving the list unchanged out of
range. -/
def modifyAt (l : List α) (i : Nat) (f : α → α) : List α :=
  match l, i with
  | [], _ => []
  | x :: xs, 0 => f x :: xs
  | x :: xs, n + 1 => x :: modifyAt xs n f

/-- Writing one cell of a row (`updateSingleCell` at the row level): cells the
write skips over stay absent. -/
def setCellAt (r : Row) (c : Nat) (v : JsVal) : Row :=
  if c < r.length then r.set c v
  else r ++ List.replicate (c - r.length) .undef ++ [v]

/-- The source's `findActivityRowIndex`: first 1-based row of the activities
tab whose column A stringifies to the id's string (`none` for the `null`
result; a missing tab reads as empty via the `.catch`). -/
def findFirstRowByColA : List Row → Nat → String → Option Nat
  | [], _, _ => none
  | r :: rest, i, idS =>
    if jsValToString (cellAt r 0) = idS then some i
    else findFirstRowByColA rest (i + 1) idS

def findActivityRowIndex (t : Option Tab) (activityId : JsVal) : Option Nat :=
  findFirstRowByColA ((t.getD []).drop 1) 2 (jsValToString activityId)

/-- The source's `overwriteActivityRow` at the row level: the update range
covers columns A..AK, so cells beyond the written width survive. -/
def overwriteRowCells (old new : Row) : Row := new ++ old.drop new.length

/-! ### Token refresh helpers (source: `getAthleteAuth`,
`writeAthleteTokens`, `ensureFreshAccessToken`) -/

/-- The record `getAthleteAuth` builds from a matching athletes row. -/
structure AuthRow where
  rowIndex : Nat
  athlete_name : JsVal
  access_token : JsVal
  refresh_token : JsVal
  expires_at : Option Dec
deriving DecidableEq, Repr

/-- The scan loop of `getAthleteAuth` over the data rows of the athletes tab
(1-based sheet indices starting at 2). -/
def authScan : List Row → Nat → String → Option AuthRow
  | [], _, _ => none
  | r :: rest, i, idS =>
    if jsValToString (cellAt r 0) = idS then
      some ⟨i, jsOr (cellAt r 1) (.str ""), jsOr (cellAt r 2) (.str ""),
        jsOr (cellAt r 3) (.str ""), toNumber (jsOr (cellAt r 4) (.num (Dec.ofInt 0)))⟩
    else authScan rest (i + 1) idS

/-- The source's `getAthleteAuth` (a missing tab reads as empty via the
`.catch`). -/
def getAthleteAuth (st : Store) (athleteId : JsVal) : Option AuthRow :=
  authScan ((st.athletes.getD []).drop 1) 2 (jsValToString athleteId)

/-- Writing the token columns C:E of one athletes row: columns A:B are not
touched (cells the range skips over stay absent), columns beyond E
survive. -/
def writeTokensRow (r : Row) (a b c : JsVal) : Row :=
  ((r ++ List.replicate (2 - r.length) JsVal.undef).take 2) ++ [a, b, c] ++ r.drop 5

/-- The source's `writeAthleteTokens`. -/
def writeAthleteTokens (st : Store) (rowIndex : Nat) (a b c : JsVal) : Store :=
  let t := modifyAt (st.athletes.getD []) (rowIndex - 1) (fun r => writeTokensRow r a b c)
  { st with athletes := some t }

/-- Response of the token endpoint on a refresh exchange. -/
structure RefreshData where
  access_token : JsVal := .undef
  refresh_token : JsVal := .undef
  expires_at : JsVal := .undef
deriving DecidableEq, Repr

/-- External-world oracles: the clock and the outcomes of the outbound
Strava calls within one processing step (`none` means the call fails). -/
structure Env where
  now : Int := 0
  refresh : Option RefreshData := none
  fetchFull : Option Activity := none
  fetchLite : Option Activity := none

/-- The freshness test `auth.access_token && auth.expires_at &&
auth.expires_at - 60 > now` (`none` is the NaN expiry, which is falsy and
compares false). -/
def tokenIsFresh (access : JsVal) (expires : Option Dec) (now : Int) : Bool :=
  jsTruthy access &&
    (match expires with
     | none => false
     | some q => decide (q.mant ≠ 0) && (Dec.ofInt now).numLt (q.sub (Dec.ofInt 60)))

/-- Observable effects of the token helper. -/
inductive TokenEff where
  | refreshCall
  | writeTokens (rowIndex : Nat)
deriving DecidableEq, Repr

/-- The source's `ensureFreshAccessToken`: result is the updated store, the
returned `access_token` and `athlete_name`, and the trace of refresh/write
effects. -/
def ensureFreshAccessToken (env : Env) (st : Store) (athleteId : JsVal) :
    Store × JsVal × JsVal × List TokenEff :=
  match getAthleteAuth st athleteId with
  | none => (st, .null, .null, [])
  | some auth =>
    if tokenIsFresh auth.access_token auth.expires_at env.now then
      (st, auth.access_token, auth.athlete_name, [])
    else
      match env.refresh with
      | none => (st, .null, auth.athlete_name, [.refreshCall])
      | some rd =>
        (writeAthleteTokens st auth.rowIndex rd.access_token rd.refresh_token rd.expires_at,
         rd.access_token, auth.athlete_name, [.refreshCall, .writeTokens auth.rowIndex])

/-! ### Webhook events and the activity processors -/

/-- The `updates` object of an update event; a field that is not present in
the payload is `undefined` (the source tests `typeof x !== 'undefined'`).
`priv` models the payload field `private`, which is a Lean keyword. -/
structure Updates where
  title : JsVal := .undef
  visibility : JsVal := .undef
  priv : JsVal := .undef
  type : JsVal := .undef
  sport_type : JsVal := .undef
deriving DecidableEq, Repr

/-- A webhook event body `{object_type, aspect_type, object_id, owner_id,
updates?}`. -/
structure Event where
  object_type : JsVal := .undef
  aspect_type : JsVal := .undef
  object_id : JsVal := .undef
  owner_id : JsVal := .undef
  updates : Updates := {}
deriving DecidableEq, Repr

/-- The source's `processNewActivity`: ensure the two tabs, de-dupe against
column A of `activities`, obtain a token, fetch the detailed activity, append
one activity row and the mapped effort rows.  Every early exit corresponds to
a `return` or to an exception swallowed by the surrounding `catch`. -/
def processNewActivity (env : Env) (st : Store) (objectId ownerId : JsVal) : Store :=
  let ta := ensureTabWithHeaders st.activities actHeadersRow
  let te := ensureTabWithHeaders st.segment_efforts effHeadersRow
  let st1 : Store := { st with activities := some ta, segment_efforts := some te }
  if jsValToString objectId ∈ readColumnA st1.activities then st1
  else
    let er := ensureFreshAccessToken env st1 ownerId
    if jsTruthy er.2.1 = false then er.1
    else
      match env.fetchFull with
      | none => er.1
      | some act =>
        match mapActivityRow er.2.2.1 ownerId act with
        | none => er.1
        | some row =>
          let st3 : Store := { er.1 with activities := some (er.1.activities.getD [] ++ [row]) }
          if act.segment_efforts.isEmpty then st3
          else
            match act.segment_efforts.mapM (mapEffortRow ownerId act) with
            | none => st3
            | some effRows =>
              { st3 with segment_efforts := some (st3.segment_efforts.getD [] ++ effRows) }

/-- Observable effects of `processActivityUpdate`. -/
inductive UpdateEff where
  | createCalled
  | fastWrite (rowIndex colIndex : Nat) (v : JsVal)
  | overwriteRow (rowIndex : Nat)
deriving DecidableEq, Repr

/-- The fast path of `processActivityUpdate`: the webhook's explicit `updates`
fields written straight into the located row's cells, following the source's
if/else-if cascades for `visibility`/`private` and `type`/`sport_type`. -/
def applyFastPath (t : Tab) (rowIndex : Nat) (u : Updates) : Tab × List UpdateEff :=
  let nameCol := getHeaderIndex t "name"
  let visCol := getHeaderIndex t "visibility"
  let sportCol := getHeaderIndex t "sport_type"
  let write : Tab × List UpdateEff → Nat → JsVal → Tab × List UpdateEff := fun acc c v =>
    (modifyAt acc.1 (rowIndex - 1) (fun r => setCellAt r c v), acc.2 ++ [.fastWrite rowIndex c v])
  let s0 : Tab × List UpdateEff := (t, [])
  let s1 :=
    match nameCol with
    | some c => if u.title ≠ .undef then write s0 c u.title else s0
    | none => s0
  let s2 :=
    match visCol with
    | some c =>
      if u.visibility ≠ .undef then write s1 c u.visibility
      else if u.priv ≠ .undef then
        write s1 c (if jsTruthy u.priv then .str "only_me" else .str "everyone")
      else s1
    | none => s1
  let s3 :=
    match sportCol with
    | some c =>
      if u.type ≠ .undef then write s2 c u.type
      else if u.sport_type ≠ .undef then write s2 c u.sport_type
      else s2
    | none => s2
  s3

/-- The tail of `processActivityUpdate` once a row index is known: fast path,
token refresh, re-fetch, full-row overwrite. -/
def updateWithRow (env : Env) (st : Store) (evt : Event) (rowIndex : Nat)
    (tr : List UpdateEff) : Store × List UpdateEff :=
  let fp := applyFastPath (st.activities.getD []) rowIndex evt.updates
  let stF : Store := { st with activities := some fp.1 }
  let er := ensureFreshAccessToken env stF evt.owner_id
  if jsTruthy er.2.1 = false then (er.1, tr ++ fp.2)
  else
    match env.fetchLite with
    | none => (er.1, tr ++ fp.2)
    | some act =>
      match mapActivityRow er.2.2.1 evt.owner_id act with
      | none => (er.1, tr ++ fp.2)
      | some row =>
        let t2 := modifyAt (er.1.activities.getD []) (rowIndex - 1)
          (fun old => overwriteRowCells old row)
        ({ er.1 with activities := some t2 }, tr ++ fp.2 ++ [.overwriteRow rowIndex])

/-- The source's `processActivityUpdate`: locate the row (falling back to the
create handler and exactly one retried lookup), apply the fast path, then
refresh/re-fetch/overwrite. -/
def processActivityUpdate (env : Env) (st : Store) (evt : Event) : Store × List UpdateEff :=
  let ta := ensureTabWithHeaders st.activities actHeadersRow
  let st1 : Store := { st with activities := some ta }
  match findActivityRowIndex st1.activities evt.object_id with
  | some r => updateWithRow env st1 evt r []
  | none =>
    let st2 := processNewActivity env st1 evt.object_id evt.owner_id
    match findActivityRowIndex st2.activities evt.object_id with
    | none => (st2, [.createCalled])
    | some r => updateWithRow env st2 evt r [.createCalled]

/-- The source's `processActivityDelete`: ensure both tabs, find matching row
indices by the `activity_id` header, batch-delete them (descending). -/
def processActivityDelete (st : Store) (evt : Event) : Store :=
  let idS := jsValToString evt.object_id
  let ta := ensureTabWithHeaders st.activities actHeadersRow
  let te := ensureTabWithHeaders st.segment_efforts effHeadersRow
  let ta2 := deleteRows ta (findRowIndicesByHeader ta "activity_id" (.str idS))
  let te2 := deleteRows te (findRowIndicesByHeader te "activity_id" (.str idS))
  { st with activities := some ta2, segment_efforts := some te2 }

/-! ### The webhook HTTP handlers (source: `app.get('/webhook')`,
`app.post('/webhook')`) -/

/-- A response body: the `{'hub.challenge': ...}` JSON echo or a plain-text
body. -/
inductive RespBody where
  | challengeJson (challenge : String)
  | text (s : String)
deriving DecidableEq, Repr

/-- The `GET /webhook` verification handler.  Inputs are the raw
`hub.mode` / `hub.verify_token` / `hub.challenge` query parameters (`none`
when absent) and the raw `STRAVA_VERIFY_TOKEN` environment value. -/
def webhookVerifyGET (expectedEnv : Option String)
    (mode token challenge : Option String) : Nat × RespBody :=
  let m := strTrim (mode.getD "")
  let p := strTrim (token.getD "")
  let expected := strTrim (expectedEnv.getD "")
  let ok := m = "subscribe" && p = expected && (challenge.getD "") ≠ ""
  if ok then (200, .challengeJson (challenge.getD ""))
  else (403, .text "Verification failed.")

/-- Observable effects of the `POST /webhook` handler, in order. -/
inductive PostEff where
  | respond (status : Nat)
  | pushed (e : Event)
deriving DecidableEq, Repr

/-- The `POST /webhook` handler: acknowledge with 200 first, then push the
body (`req.body || {}`) onto the in-memory queue. -/
def webhookPOST (q : List Event) (body : Option Event) : List PostEff × List Event :=
  let evt := body.getD {}
  ([.respond 200, .pushed evt], q ++ [evt])

/-! ### The in-memory queue and the drain loop (source: `inboxQ`,
`queueBusy`, `drainQueue`)

A drain pass is modelled as processing the queue it finds atomically; the
sequential-interleaving model exposes the busy flag and the per-event effect
trace.  Processing one event is the audit append plus the dispatch by
type/aspect; the oracle `fails` marks the events whose processing step raises
(in the source only the audit append can throw, the three dispatched handlers
swallow their own errors). -/

/-- Observable per-event effects of a drain pass, in order. -/
inductive DrainEff where
  | audit (e : Event)
  | dispatchCreate (objectId ownerId : JsVal)
  | dispatchUpdate (e : Event)
  | dispatchDelete (e : Event)
deriving DecidableEq, Repr

/-- The dispatch of one dequeued event by `object_type` / `aspect_type`. -/
def routeEvent (e : Event) : List DrainEff :=
  if e.object_type = .str "activity" then
    if e.aspect_type = .str "create" then [.dispatchCreate e.object_id e.owner_id]
    else if e.aspect_type = .str "update" then [.dispatchUpdate e]
    else if e.aspect_type = .str "delete" then [.dispatchDelete e]
    else []
  else []

/-- Full processing of one dequeued event: the audit row first, then the
dispatch. -/
def processEventEffects (e : Event) : List DrainEff := .audit e :: routeEvent e

/-- The while loop of `drainQueue`: pop the oldest event, process it, stop
the whole pass at the first event whose processing raises (that event is
already popped). -/
def drainLoop (fails : Event → Bool) : List Event → List Event × List DrainEff
  | [] => ([], [])
  | e :: rest =>
    if fails e then (rest, [])
    else
      match drainLoop fails rest with
      | (q, tr) => (q, processEventEffects e ++ tr)

/-- The queue state: the in-memory inbox list and the busy flag. -/
structure QState where
  inboxQ : List Event := []
  queueBusy : Bool := false
deriving DecidableEq, Repr

/-- The source's `drainQueue`: a no-op while the busy flag is set; otherwise
the flag is raised, the loop runs inside `try`, and the `finally` clears the
flag whether the loop finished or raised. -/
def drainQueue (fails : Event → Bool) (s : QState) : QState × List DrainEff :=
  if s.queueBusy then (s, [])
  else
    match drainLoop fails s.inboxQ with
    | (q, tr) => (⟨q, false⟩, tr)

/-- External stimuli of the queue system within one process lifetime: a
webhook POST enqueues, a timer tick invokes `drainQueue`. -/
inductive QCmd where
  | enq (e : Event)
  | tick
deriving DecidableEq, Repr

/-- One stimulus applied to the queue state, accumulating the effect trace. -/
def queueStep (fails : Event → Bool) (s : QState × List DrainEff) (c : QCmd) :
    QState × List DrainEff :=
  match c with
  | .enq e => ({ s.1 with inboxQ := s.1.inboxQ ++ [e] }, s.2)
  | .tick =>
    match drainQueue fails s.1 with
    | (s2, tr) => (s2, s.2 ++ tr)

/-- A whole process lifetime from the initial empty, non-busy state. -/
def queueRun (fails : Event → Bool) (cs : List QCmd) : QState × List DrainEff :=
  cs.foldl (queueStep fails) ({}, [])

/-- The audited (i.e. actually processed) events of a trace, in order. -/
def auditedEvents (tr : List DrainEff) : List Event :=
  tr.filterMap (fun te => match te with | .audit e => some e | _ => none)

/-- The events a stimulus sequence enqueues, in arrival order. -/
def enqueuedEvents (cs : List QCmd) : List Event :=
  cs.filterMap (fun c => match c with | .enq e => some e | _ => none)

/-! ### Concrete instances used by witnesses and counterexamples -/

/-- A create event for activity 123 of athlete 9. -/
def evCreate : Event :=
  { object_type := .str "activity", aspect_type := .str "create",
    object_id := .num ⟨123, 0⟩, owner_id := .num ⟨9, 0⟩ }

/-- An update event for activity 123 with a new title. -/
def evUpdate : Event :=
  { object_type := .str "activity", aspect_type := .str "update",
    object_id := .num ⟨123, 0⟩, owner_id := .num ⟨9, 0⟩,
    updates := { title := .str "New Title" } }

/-- A delete event for activity 15538647680. -/
def evDelete : Event :=
  { object_type := .str "activity", aspect_type := .str "delete",
    object_id := .num ⟨15538647680, 0⟩, owner_id := .num ⟨9, 0⟩ }

/-- A non-activity event. -/
def evOther : Event := { object_type := .str "athlete", aspect_type := .str "update" }

/-- The detailed activity 123, started 2024-06-15T23:10:00 local, 8000 m. -/
def actA : Activity :=
  { id := .num ⟨123, 0⟩, name := .str "Evening run",
    start_date_local := .str "2024-06-15T23:10:00", distance := .num ⟨8000, 0⟩ }

/-- An athletes row for athlete 9 with a token expiring far in the future. -/
def athleteRow9 : Row :=
  [.str "9", .str "Al", .str "tok", .str "ref", .num ⟨9999999999, 0⟩]

/-- A store in the normal shape: header rows present, one connected
athlete. -/
def stNormal : Store :=
  { activities := some [actHeadersRow],
    segment_efforts := some [effHeadersRow],
    athletes := some [athletesHeadersRow, athleteRow9],
    inbox := some [] }

/-- A store whose activities tab exists but is completely empty (no header
row): rows appended to it land in row 1, outside the `A2:A` de-dupe scan. -/
def stEmptyActivities : Store :=
  { activities := some [],
    segment_efforts := some [effHeadersRow],
    athletes := some [athletesHeadersRow, athleteRow9],
    inbox := some [] }

/-- A store already holding activity 123 (and one of its efforts). -/
def stWith123 : Store :=
  { activities := some [actHeadersRow, [.num ⟨123, 0⟩, .num ⟨9, 0⟩, .str "Al", .str "Old"]],
    segment_efforts := some [effHeadersRow, [.num ⟨123, 0⟩, .num ⟨9, 0⟩, .num ⟨77, 0⟩]],
    athletes := some [athletesHeadersRow, athleteRow9],
    inbox := some [] }

/-- An environment where the fetches return activity 123 and no refresh is
available. -/
def envCreate : Env := { now := 0, refresh := none, fetchFull := some actA, fetchLite := some actA }

/-- A token row for athlete 9 whose stored expiry is `e` seconds. -/
def stTok (e : Int) : Store :=
  { athletes := some [athletesHeadersRow,
      [.str "9", .str "Al", .str "tok", .str "ref", .num ⟨e, 0⟩]] }

/-- A successful refresh exchange result. -/
def rdA : RefreshData :=
  { access_token := .str "tok2", refresh_token := .str "ref2", expires_at := .num ⟨5000, 0⟩ }

/-- A store for the delete witness: activity 15538647680 appears in
scientific notation in the activities tab, and twice (in two renderings) in
the efforts tab, next to unrelated rows. -/
def stDel : Store :=
  { activities := some [actHeadersRow,
      [.str "1.553864768e+10", .num ⟨9, 0⟩],
      [.num ⟨555, 0⟩, .num ⟨9, 0⟩]],
    segment_efforts := some [effHeadersRow,
      [.num ⟨15538647680, 0⟩, .num ⟨9, 0⟩],
      [.str "15538647680"],
      [.str "777"]] }

/-- The C8 counterexample store: activity 7 has a row, but no athletes row
exists, so the token refresh yields no usable token. -/
def stU : Store := { activities := some [actHeadersRow, [.str "7"]], athletes := some [] }

/-- An update event for activity 7 retitling it. -/
def evtU : Event :=
  { object_type := .str "activity", aspect_type := .str "update",
    object_id := .str "7", owner_id := .num ⟨9, 0⟩,
    updates := { title := .str "New" } }

/-- An environment where every outbound call fails. -/
def envU : Env := {}

/-- The fast-path result of the C8 witness run. -/
def w8fast : Tab × List UpdateEff :=
  applyFastPath (ensureTabWithHeaders stWith123.activities actHeadersRow) 2 evUpdate.updates

/-- The token step of the C8 witness run. -/
def w8tok : Store × JsVal × JsVal × List TokenEff :=
  ensureFreshAccessToken envCreate { stWith123 with activities := some w8fast.1 }
    evUpdate.owner_id

/-- The remapped full row of the C8 witness run. -/
def w8row : List JsVal := (mapActivityRow w8tok.2.2.1 evUpdate.owner_id actA).getD []

-- ------------------------------------------------------------------
-- THEOREMS
-- ------------------------------------------------------------------

/-! ### Queue lemmas -/

theorem drainLoop_abort (fails : Event → Bool) (pre : List Event) (e : Event)
    (post : List Event) (hpre : ∀ x ∈ pre, fails x = false) (he : fails e = true) :
    drainLoop fails (pre ++ e :: post) = (post, pre.flatMap processEventEffects) := by
  induction pre with
  | nil => simp [drainLoop, he]
  | cons x rest ih =>
    have hx : fails x = false := hpre x (by simp)
    have ih2 := ih (fun y hy => hpre y (by simp [hy]))
    simp [drainLoop, hx, ih2]

theorem drainLoop_trace (fails : Event → Bool) (q : List Event) :
    (drainLoop fails q).2 =
      (q.takeWhile (fun e => !fails e)).flatMap processEventEffects := by
  induction q with
  | nil => simp [drainLoop]
  | cons e rest ih =>
    by_cases he : fails e
    · simp [drainLoop, he, List.takeWhile_cons]
    · simp only [Bool.not_eq_true] at he
      simp [drainLoop, he, List.takeWhile_cons, ih]

theorem drainLoop_nofail (fails : Event → Bool) (hf : ∀ e, fails e = false)
    (q : List Event) :
    drainLoop fails q = ([], q.flatMap processEventEffects) := by
  induction q with
  | nil => rfl
  | cons e rest ih => simp [drainLoop, hf e, ih]

theorem auditedEvents_append (tr tr' : List DrainEff) :
    auditedEvents (tr ++ tr') = auditedEvents tr ++ auditedEvents tr' := by
  simp [auditedEvents, List.filterMap_append]

theorem auditedEvents_routeEvent (e : Event) : auditedEvents (routeEvent e) = [] := by
  simp only [routeEvent]
  split <;> [skip; rfl]
  split <;> [rfl; skip]
  split <;> [rfl; skip]
  split <;> rfl

theorem auditedEvents_flatMap (q : List Event) :
    auditedEvents (q.flatMap processEventEffects) = q := by
  induction q with
  | nil => rfl
  | cons e rest ih =>
    simp only [List.flatMap_cons, auditedEvents_append, ih, processEventEffects]
    have : auditedEvents (DrainEff.audit e :: routeEvent e) =
        e :: auditedEvents (routeEvent e) := rfl
    simp [this, auditedEvents_routeEvent]

theorem queueRun_invariant (fails : Event → Bool) (hf : ∀ e, fails e = false)
    (cs : List QCmd) :
    ∀ (s : QState) (tr : List DrainEff), s.queueBusy = false →
      auditedEvents ((cs.foldl (queueStep fails) (s, tr)).2) ++
          ((cs.foldl (queueStep fails) (s, tr)).1).inboxQ =
        auditedEvents tr ++ s.inboxQ ++ enqueuedEvents cs ∧
      ((cs.foldl (queueStep fails) (s, tr)).1).queueBusy = false := by
  induction cs with
  | nil => intro s tr hb; simp [enqueuedEvents, hb]
  | cons c rest ih =>
    intro s tr hb
    cases c with
    | enq e =>
      have h := ih { s with inboxQ := s.inboxQ ++ [e] } tr hb
      simpa [queueStep, enqueuedEvents, List.filterMap_cons] using h
    | tick =>
      have hd : drainQueue fails s = (⟨[], false⟩, s.inboxQ.flatMap processEventEffects) := by
        simp [drainQueue, hb, drainLoop_nofail fails hf]
      have h := ih ⟨[], false⟩ (tr ++ s.inboxQ.flatMap processEventEffects) rfl
      simp only [List.foldl_cons, queueStep, hd]
      constructor
      · rw [h.1]
        simp [auditedEvents_append, auditedEvents_flatMap, enqueuedEvents, List.filterMap_cons]
      · exact h.2

theorem queueRun_busy_false (fails : Event → Bool) (cs : List QCmd) :
    ∀ (s : QState) (tr : List DrainEff), s.queueBusy = false →
      ((cs.foldl (queueStep fails) (s, tr)).1).queueBusy = false := by
  induction cs with
  | nil => intro s tr hb; simpa using hb
  | cons c rest ih =>
    intro s tr hb
    cases c with
    | enq e => exact ih { s with inboxQ := s.inboxQ ++ [e] } tr hb
    | tick =>
      have hd : ((drainQueue fails s).1).queueBusy = false := by
        simp [drainQueue, hb]
      simp only [List.foldl_cons, queueStep]
      rcases hq : drainQueue fails s with ⟨s2, tr2⟩
      exact ih s2 (tr ++ tr2) (by rw [hq] at hd; exact hd)

/-! ### C5, C6, C7, C9, C10 -/

/-- C5 counterexample: with `hub.mode = subscribe` and `hub.verify_token`
exactly the configured secret, the challenge string `""` is answered with
403, not 200 — the code additionally requires a truthy challenge
(`!!challenge`). -/
theorem c5_counterexample :
    strTrim "subscribe" = "subscribe" ∧ strTrim "sec" = strTrim "sec" ∧
    webhookVerifyGET (some "sec") (some "subscribe") (some "sec") (some "") =
      (403, .text "Verification failed.") := by
  decide

/-- C5 (amended): a `GET /webhook` whose trimmed mode is `subscribe`, whose
trimmed token equals the trimmed configured secret, and whose challenge is a
nonempty string is answered 200 with the challenge echoed as
`{'hub.challenge': ...}`; whenever mode or token mismatch, the response is
403 with the fixed body `Verification failed.`, the same constant for every
configured secret, so the expected token value never reaches the
response. -/
theorem c5_webhook_verification (expectedEnv mode token challenge : Option String) :
    (∀ c, challenge = some c → c ≠ "" →
      strTrim (mode.getD "") = "subscribe" →
      strTrim (token.getD "") = strTrim (expectedEnv.getD "") →
      webhookVerifyGET expectedEnv mode token challenge = (200, .challengeJson c)) ∧
    ((strTrim (mode.getD "") ≠ "subscribe" ∨
      strTrim (token.getD "") ≠ strTrim (expectedEnv.getD "")) →
      webhookVerifyGET expectedEnv mode token challenge =
        (403, .text "Verification failed.")) := by
  constructor
  · intro c hc hne hm ht
    simp [webhookVerifyGET, hc, hm, ht, hne]
  · intro hmis
    rcases hmis with hm | ht
    · simp [webhookVerifyGET, hm]
    · have : (strTrim (token.getD "") = strTrim (expectedEnv.getD "")) = False := by
        simp [ht]
      simp [webhookVerifyGET, this]

/-- C5 witness: the 200 echo for a matching request with challenge `CHAL`,
and the constant 403 body for a mismatching token. -/
theorem c5_webhook_verification_witness :
    webhookVerifyGET (some "tok123") (some "subscribe") (some "tok123") (some "CHAL") =
      (200, .challengeJson "CHAL") ∧
    webhookVerifyGET (some "tok123") (some "subscribe") (some "wrong") (some "CHAL") =
      (403, .text "Verification failed.") :=
  ⟨(c5_webhook_verification (some "tok123") (some "subscribe") (some "tok123")
      (some "CHAL")).1 "CHAL" rfl (by decide) (by decide) (by decide),
   (c5_webhook_verification (some "tok123") (some "subscribe") (some "wrong")
      (some "CHAL")).2 (Or.inr (by decide))⟩

/-- C6: `POST /webhook` acknowledges with status 200 as its first effect,
before the body is pushed; the body (defaulted to `{}` when absent) is
appended to the in-memory queue, and the enqueue always succeeds — for every
queue state and every body, including malformed/non-activity ones, the
result is the same 200-then-push shape, independent of any later
processing. -/
theorem c6_post_webhook_acks_then_enqueues (q : List Event) (body : Option Event) :
    (webhookPOST q body).1.head? = some (.respond 200) ∧
    (webhookPOST q body).1 = [.respond 200, .pushed (body.getD {})] ∧
    (webhookPOST q body).2 = q ++ [body.getD {}] :=
  ⟨rfl, rfl, rfl⟩

/-- C7: when the processing of one queued event raises, the whole drain pass
aborts: the events processed before it produced their effects in order, the
failing event (already popped) is dropped without retry or re-enqueue, and
the queue afterwards holds exactly the not-yet-popped events, left for the
next tick (the busy flag back down). -/
theorem c7_drain_abort_on_failure (fails : Event → Bool) (pre : List Event)
    (e : Event) (post : List Event)
    (hpre : ∀ x ∈ pre, fails x = false) (he : fails e = true) :
    drainQueue fails ⟨pre ++ e :: post, false⟩ =
      (⟨post, false⟩, pre.flatMap processEventEffects) := by
  simp [drainQueue, drainLoop_abort fails pre e post hpre he]

/-- C7 witness: a three-event queue whose middle event fails: the first event
is processed, the failing one dropped, the last one left queued. -/
theorem c7_drain_abort_on_failure_witness :
    drainQueue (fun ev => decide (ev = evDelete)) ⟨[evCreate, evDelete, evOther], false⟩ =
      (⟨[evOther], false⟩, [evCreate].flatMap processEventEffects) :=
  c7_drain_abort_on_failure (fun ev => decide (ev = evDelete)) [evCreate] evDelete
    [evOther] (by decide) (by decide)

/-- C9: a drain invocation that starts while the busy flag is set is a no-op
(so event processing is never concurrent); a drain pass pops events oldest
first, and its trace is, in queue (FIFO) order, the audit of each event
followed by its dispatch by `object_type`/`aspect_type`, up to the first
failing event; and across a whole process lifetime without failures the
audited events followed by the still-queued ones are exactly the enqueued
events in arrival order. -/
theorem c9_fifo_processing (fails : Event → Bool) :
    (∀ s : QState, s.queueBusy = true → drainQueue fails s = (s, [])) ∧
    (∀ e : Event, processEventEffects e = .audit e :: routeEvent e) ∧
    (∀ q : List Event,
      (drainQueue fails ⟨q, false⟩).2 =
        (q.takeWhile (fun e => !fails e)).flatMap processEventEffects) ∧
    ((∀ e, fails e = false) → ∀ cs : List QCmd,
      auditedEvents ((queueRun fails cs).2) ++ ((queueRun fails cs).1).inboxQ =
        enqueuedEvents cs) := by
  refine ⟨fun s hb => by simp [drainQueue, hb], fun e => rfl, fun q => ?_, fun hf cs => ?_⟩
  · have h := drainLoop_trace fails q
    simp only [drainQueue, Bool.false_eq_true, if_false]
    rcases hq : drainLoop fails q with ⟨q', tr⟩
    simpa [hq] using h
  · have h := queueRun_invariant fails hf cs {} [] rfl
    simpa [queueRun, auditedEvents, enqueuedEvents] using h.1

/-- C9 witness: the busy no-op, the trace of an all-success two-event pass,
and the lifetime FIFO equation for an enqueue/tick/enqueue sequence. -/
theorem c9_fifo_processing_witness :
    drainQueue (fun _ => false) ⟨[evCreate], true⟩ = (⟨[evCreate], true⟩, []) ∧
    (drainQueue (fun _ => false) ⟨[evCreate, evDelete], false⟩).2 =
      ([evCreate, evDelete].takeWhile (fun _ => !false)).flatMap processEventEffects ∧
    auditedEvents ((queueRun (fun _ => false) [.enq evCreate, .tick, .enq evDelete]).2) ++
        ((queueRun (fun _ => false) [.enq evCreate, .tick, .enq evDelete]).1).inboxQ =
      enqueuedEvents [.enq evCreate, .tick, .enq evDelete] :=
  ⟨(c9_fifo_processing (fun _ => false)).1 ⟨[evCreate], true⟩ rfl,
   (c9_fifo_processing (fun _ => false)).2.2.1 [evCreate, evDelete],
   (c9_fifo_processing (fun _ => false)).2.2.2 (fun _ => rfl)
     [.enq evCreate, .tick, .enq evDelete]⟩

/-- C10: after any completed `drainQueue` invocation that actually ran (the
flag was down when it started), the busy flag is down again, whatever the
failure oracle did to the pass (the `finally`); and along any lifetime of
enqueues and ticks from the initial state, the flag is down between steps —
a failing pass can never leave it stuck. -/
theorem c10_busy_flag_always_released (fails : Event → Bool) :
    (∀ s : QState, s.queueBusy = false → ((drainQueue fails s).1).queueBusy = false) ∧
    (∀ cs : List QCmd, ((queueRun fails cs).1).queueBusy = false) := by
  refine ⟨fun s hb => by simp [drainQueue, hb], fun cs => ?_⟩
  exact queueRun_busy_false fails cs {} [] rfl

/-- C10 witness: the flag is down after a pass whose single event failed, and
after a lifetime ending in a failing tick. -/
theorem c10_busy_flag_always_released_witness :
    ((drainQueue (fun _ => true) ⟨[evCreate], false⟩).1).queueBusy = false ∧
    ((queueRun (fun _ => true) [.enq evCreate, .tick]).1).queueBusy = false :=
  ⟨(c10_busy_flag_always_released (fun _ => true)).1 ⟨[evCreate], false⟩ rfl,
   (c10_busy_flag_always_released (fun _ => true)).2 [.enq evCreate, .tick]⟩

/-! ### C3: derived fields of the activity row mapper -/

theorem daysFromCivil_sub (y : Int) (m : Nat) (d₁ d₂ : Int) :
    daysFromCivil y m d₁ - daysFromCivil y m d₂ = d₁ - d₂ := by
  simp only [daysFromCivil]
  ring

theorem weekStartString_eq (dt : DateTime) :
    weekStartString dt =
      isoDateString (daysFromCivil (dt.year : Int) dt.month (dt.day : Int) -
        dayOfWeek (daysFromCivil (dt.year : Int) dt.month (dt.day : Int))) := by
  have h := daysFromCivil_sub (dt.year : Int) dt.month
    ((dt.day : Int) - dayOfWeek (daysFromCivil (dt.year : Int) dt.month (dt.day : Int)))
    (dt.day : Int)
  have h2 : daysFromCivil (dt.year : Int) dt.month
      ((dt.day : Int) - dayOfWeek (daysFromCivil (dt.year : Int) dt.month (dt.day : Int))) =
      daysFromCivil (dt.year : Int) dt.month (dt.day : Int) -
        dayOfWeek (daysFromCivil (dt.year : Int) dt.month (dt.day : Int)) := by
    omega
  simp only [weekStartString]
  rw [h2]

theorem jsGeConst_or_zero (dq : Dec) :
    jsGeConst (jsOr (.num dq) (.num (Dec.ofInt 0))) 5000 = (Dec.ofInt 5000).numLe dq := by
  have hp : (0 : Int) < 10 ^ dq.exp := pow_pos (by norm_num) _
  by_cases h : dq.mant = 0
  · have h1 : ¬ ((5000 : Int) * 10 ^ dq.exp ≤ dq.mant * 10 ^ (0 : Nat)) := by
      rw [h]
      simp only [mul_zero, zero_mul, not_le]
      positivity
    simp [jsGeConst, jsOr, jsTruthy, h, toNumber, Dec.numLe, Dec.ofInt, h1]
  · simp [jsGeConst, jsOr, jsTruthy, h, toNumber]

/-- C3: for the concrete activity started `2024-06-15T23:10:00` local with
distance 8000, the mapped row has `is_night_run = true`, `is_5k_plus = true`,
`local_hour = 23`, `week_start = 2024-06-09` (the preceding Sunday at local
midnight) and `month = "2024-06"`; and in general, for any activity whose
local start timestamp parses, `is_night_run` is the local hour being ≥ 22,
`is_5k_plus` is the distance being ≥ 5000, `local_hour` is the local hour,
`week_start` is the ISO date of the local start day minus the local
day-of-week (time zeroed), and `month` is `YYYY-MM` of the local start. -/
theorem c3_row_mapping (aname aid : JsVal) :
    (((mapActivityRow aname aid actA).getD []).get? 31 = some (.bool true) ∧
     ((mapActivityRow aname aid actA).getD []).get? 32 = some (.bool true) ∧
     ((mapActivityRow aname aid actA).getD []).get? 33 = some (.num (Dec.ofInt 23)) ∧
     ((mapActivityRow aname aid actA).getD []).get? 34 = some (.str "2024-06-09") ∧
     ((mapActivityRow aname aid actA).getD []).get? 35 = some (.str "2024-06")) ∧
    (∀ (s : String) (dt : DateTime), parseDateTime s = some dt →
      ∀ (a : Activity) (dq : Dec), a.start_date_local = .str s → a.distance = .num dq →
      ∃ row, mapActivityRow aname aid a = some row ∧
        row.get? 31 = some (.bool (decide (22 ≤ dt.hour))) ∧
        row.get? 32 = some (.bool ((Dec.ofInt 5000).numLe dq)) ∧
        row.get? 33 = some (.num (Dec.ofInt dt.hour)) ∧
        row.get? 34 = some (.str (isoDateString
          (daysFromCivil (dt.year : Int) dt.month (dt.day : Int) -
            dayOfWeek (daysFromCivil (dt.year : Int) dt.month (dt.day : Int))))) ∧
        row.get? 35 = some (.str (toString dt.year ++ "-" ++ pad2 dt.month))) := by
  constructor
  · exact ⟨rfl, rfl, rfl, rfl, rfl⟩
  · intro s dt hparse a dq hs hd
    have hp : jsDateParse a.start_date_local = some dt := by
      rw [hs]
      exact hparse
    simp only [mapActivityRow, hp, hd]
    refine ⟨_, rfl, rfl, ?_, rfl, ?_, rfl⟩
    · simp [jsGeConst_or_zero]
    · simp [weekStartString_eq]

/-- C3 witness: the general statement applied at the claim's concrete
timestamp and distance. -/
theorem c3_row_mapping_witness :
    ∃ row, mapActivityRow (.str "Al") (.num ⟨9, 0⟩) actA = some row ∧
      row.get? 31 = some (.bool (decide (22 ≤ (23 : Nat)))) ∧
      row.get? 32 = some (.bool ((Dec.ofInt 5000).numLe ⟨8000, 0⟩)) ∧
      row.get? 33 = some (.num (Dec.ofInt (23 : Nat))) ∧
      row.get? 34 = some (.str (isoDateString
        (daysFromCivil (2024 : Int) 6 (15 : Int) -
          dayOfWeek (daysFromCivil (2024 : Int) 6 (15 : Int))))) ∧
      row.get? 35 = some (.str (toString (2024 : Nat) ++ "-" ++ pad2 6)) :=
  (c3_row_mapping (.str "Al") (.num ⟨9, 0⟩)).2 "2024-06-15T23:10:00"
    ⟨2024, 6, 15, 23, 10, 0⟩ (by decide) actA ⟨8000, 0⟩ rfl rfl

/-! ### C4: token refresh -/

theorem writeTokensRow_cellAt (r : Row) (a b c : JsVal) :
    cellAt (writeTokensRow r a b c) 0 = cellAt r 0 ∧
    cellAt (writeTokensRow r a b c) 1 = cellAt r 1 ∧
    cellAt (writeTokensRow r a b c) 2 = a ∧
    cellAt (writeTokensRow r a b c) 3 = b ∧
    cellAt (writeTokensRow r a b c) 4 = c ∧
    ∀ j, 5 ≤ j → cellAt (writeTokensRow r a b c) j = cellAt r j := by
  rcases r with _ | ⟨x, _ | ⟨y, rest⟩⟩
  · refine ⟨rfl, rfl, rfl, rfl, rfl, ?_⟩
    intro j hj
    obtain ⟨n, rfl⟩ : ∃ n, j = n + 5 := ⟨j - 5, by omega⟩
    rfl
  · refine ⟨rfl, rfl, rfl, rfl, rfl, ?_⟩
    intro j hj
    obtain ⟨n, rfl⟩ : ∃ n, j = n + 5 := ⟨j - 5, by omega⟩
    rfl
  · refine ⟨rfl, rfl, rfl, rfl, rfl, ?_⟩
    intro j hj
    obtain ⟨n, rfl⟩ : ∃ n, j = n + 5 := ⟨j - 5, by omega⟩
    show ((rest.drop 3).get? n).getD .undef = (rest.get? (n + 3)).getD .undef
    rw [List.get?_drop]
    congr 2
    omega

/-- C4: with a stored token row, a non-empty access token whose expiry lies
more than 60 seconds in the future is returned unchanged, with no refresh
call and no write to the store; when the freshness check fails (token absent
or expiring within the 60-second buffer), the refresh token is exchanged and
the new access/refresh/expiry triple is persisted into columns C:E of the
same athletes row (other cells untouched) and the new access token returned;
and a failed exchange returns a null access token. -/
theorem c4_token_refresh (env : Env) (st : Store) (aid : JsVal) (auth : AuthRow)
    (hAuth : getAthleteAuth st aid = some auth) (hNow : 0 ≤ env.now) :
    (∀ tok q, auth.access_token = .str tok → tok ≠ "" → auth.expires_at = some q →
      (Dec.ofInt (env.now + 60)).numLt q = true →
      ensureFreshAccessToken env st aid = (st, .str tok, auth.athlete_name, [])) ∧
    (tokenIsFresh auth.access_token auth.expires_at env.now = false →
      (∀ rd, env.refresh = some rd →
        ensureFreshAccessToken env st aid =
          (writeAthleteTokens st auth.rowIndex rd.access_token rd.refresh_token rd.expires_at,
           rd.access_token, auth.athlete_name,
           [.refreshCall, .writeTokens auth.rowIndex])) ∧
      (env.refresh = none →
        ensureFreshAccessToken env st aid =
          (st, .null, auth.athlete_name, [.refreshCall]))) ∧
    (∀ (r : Row) (a b c : JsVal),
      cellAt (writeTokensRow r a b c) 2 = a ∧ cellAt (writeTokensRow r a b c) 3 = b ∧
      cellAt (writeTokensRow r a b c) 4 = c ∧
      cellAt (writeTokensRow r a b c) 0 = cellAt r 0 ∧
      cellAt (writeTokensRow r a b c) 1 = cellAt r 1 ∧
      ∀ j, 5 ≤ j → cellAt (writeTokensRow r a b c) j = cellAt r j) := by
  refine ⟨?_, ?_, ?_⟩
  · intro tok q hTok hNe hExp hGt
    have hpow : (0 : Int) < 10 ^ q.exp := pow_pos (by norm_num) _
    have hGt2 : (env.now + 60) * 10 ^ q.exp < q.mant * 10 ^ (0 : Nat) := by
      have := of_decide_eq_true hGt
      simpa [Dec.numLt, Dec.ofInt] using this
    simp only [pow_zero, mul_one] at hGt2
    have hq0 : q.mant ≠ 0 := by nlinarith
    have hlt : (Dec.ofInt env.now).numLt (q.sub (Dec.ofInt 60)) = true := by
      simp only [Dec.numLt, Dec.sub, Dec.ofInt, pow_zero, mul_one, Nat.add_zero,
        decide_eq_true_eq]
      nlinarith
    have hFresh : tokenIsFresh auth.access_token auth.expires_at env.now = true := by
      rw [hTok, hExp]
      simp [tokenIsFresh, jsTruthy, hNe, hq0, hlt]
    rw [← hTok]
    simp [ensureFreshAccessToken, hAuth, hFresh]
  · intro hStale
    constructor
    · intro rd hR
      simp [ensureFreshAccessToken, hAuth, hStale, hR]
    · intro hR
      simp [ensureFreshAccessToken, hAuth, hStale, hR]
  · intro r a b c
    obtain ⟨h0, h1, h2, h3, h4, h5⟩ := writeTokensRow_cellAt r a b c
    exact ⟨h2, h3, h4, h0, h1, h5⟩

/-- C4 witness: at `now = 0`, expiry `now+120` returns the cached token with
no effects; expiry `now+30` triggers the exchange and persists the new
triple; and with the exchange failing the access token is null. -/
theorem c4_token_refresh_witness :
    ensureFreshAccessToken { now := 0, refresh := some rdA } (stTok 120) (.num ⟨9, 0⟩) =
      (stTok 120, .str "tok", .str "Al", []) ∧
    ensureFreshAccessToken { now := 0, refresh := some rdA } (stTok 30) (.num ⟨9, 0⟩) =
      (writeAthleteTokens (stTok 30) 2 (.str "tok2") (.str "ref2") (.num ⟨5000, 0⟩),
       .str "tok2", .str "Al", [.refreshCall, .writeTokens 2]) ∧
    ensureFreshAccessToken { now := 0, refresh := none } (stTok 30) (.num ⟨9, 0⟩) =
      (stTok 30, .null, .str "Al", [.refreshCall]) :=
  ⟨(c4_token_refresh { now := 0, refresh := some rdA } (stTok 120) (.num ⟨9, 0⟩)
      ⟨2, .str "Al", .str "tok", .str "ref", some ⟨120, 0⟩⟩ (by decide) (by decide)).1
      "tok" ⟨120, 0⟩ rfl (by decide) rfl (by decide),
   ((c4_token_refresh { now := 0, refresh := some rdA } (stTok 30) (.num ⟨9, 0⟩)
      ⟨2, .str "Al", .str "tok", .str "ref", some ⟨30, 0⟩⟩ (by decide) (by decide)).2.1
      (by decide)).1 rdA rfl,
   ((c4_token_refresh { now := 0, refresh := none } (stTok 30) (.num ⟨9, 0⟩)
      ⟨2, .str "Al", .str "tok", .str "ref", some ⟨30, 0⟩⟩ (by decide) (by decide)).2.1
      (by decide)).2 rfl⟩

/-! ### C2: hard delete removes exactly the matching rows

The lemma chain shows that erasing the matched row indices in descending
order (the batch the source builds) equals filtering the matching rows out:
the scan produces strictly increasing indices, the descending sort of an
increasing list is its reverse, and folding `eraseIdx` over decreasing
positions never shifts a position that is still to be deleted. -/

theorem scanMatches_shift (c : Nat) (v : JsVal) (l : List Row) :
    ∀ k, scanMatches c v l (k + 1) = (scanMatches c v l k).map (· + 1) := by
  induction l with
  | nil => intro k; rfl
  | cons r rest ih =>
    intro k
    by_cases hP : idsEqual (cellAt r c) v
    · simp [scanMatches, hP, ih (k + 1)]
    · simp [scanMatches, hP, ih (k + 1)]

theorem scanMatches_mem_ge (c : Nat) (v : JsVal) (l : List Row) :
    ∀ k j, j ∈ scanMatches c v l k → k ≤ j := by
  induction l with
  | nil => intro k j h; simp [scanMatches] at h
  | cons r rest ih =>
    intro k j h
    simp only [scanMatches, List.mem_append] at h
    rcases h with h | h
    · split at h <;> simp_all
    · exact le_trans (Nat.le_succ k) (ih (k + 1) j h)

theorem scanMatches_pairwise (c : Nat) (v : JsVal) (l : List Row) :
    ∀ k, (scanMatches c v l k).Pairwise (· < ·) := by
  induction l with
  | nil => intro k; exact List.Pairwise.nil
  | cons r rest ih =>
    intro k
    by_cases hP : idsEqual (cellAt r c) v
    · simp only [scanMatches, hP, if_true, List.singleton_append]
      exact List.Pairwise.cons
        (fun j hj => lt_of_lt_of_le (Nat.lt_succ_self k) (scanMatches_mem_ge c v rest (k + 1) j hj))
        (ih (k + 1))
    · simp only [scanMatches, hP, if_false, List.nil_append]
      exact ih (k + 1)

theorem insertDesc_last (x : Nat) (l : List Nat) (h : ∀ y ∈ l, x < y) :
    insertDesc x l = l ++ [x] := by
  induction l with
  | nil => rfl
  | cons y ys ih =>
    have hy : x < y := h y (by simp)
    have hle : ¬ (y ≤ x) := by omega
    simp only [insertDesc, hle, if_false]
    rw [ih (fun z hz => h z (by simp [hz]))]
    rfl

theorem sortDesc_of_sorted (l : List Nat) (h : l.Pairwise (· < ·)) :
    sortDesc l = l.reverse := by
  induction l with
  | nil => rfl
  | cons x xs ih =>
    rw [List.pairwise_cons] at h
    show insertDesc x (sortDesc xs) = (x :: xs).reverse
    rw [ih h.2, insertDesc_last x xs.reverse (fun y hy => h.1 y (List.mem_reverse.mp hy))]
    simp

theorem foldl_eraseIdx_succ (is : List Nat) : ∀ (x : α) (xs : List α),
    is.foldl (fun acc i => acc.eraseIdx (i + 1)) (x :: xs) =
      x :: is.foldl (fun acc i => acc.eraseIdx i) xs := by
  induction is with
  | nil => intro x xs; rfl
  | cons i rest ih =>
    intro x xs
    simp only [List.foldl_cons]
    have : (x :: xs).eraseIdx (i + 1) = x :: xs.eraseIdx i := rfl
    rw [this]
    exact ih x (xs.eraseIdx i)

theorem erase_scan_eq_filter (c : Nat) (v : JsVal) (l : List Row) :
    ((scanMatches c v l 0).reverse).foldl (fun acc i => acc.eraseIdx i) l =
      l.filter (fun r => !(idsEqual (cellAt r c) v)) := by
  induction l with
  | nil => rfl
  | cons r rest ih =>
    by_cases hP : idsEqual (cellAt r c) v
    · have hs : scanMatches c v (r :: rest) 0 = 0 :: (scanMatches c v rest 0).map (· + 1) := by
        simp [scanMatches, hP, scanMatches_shift c v rest 0]
      rw [hs, List.reverse_cons, List.foldl_append, ← List.map_reverse, List.foldl_map,
        foldl_eraseIdx_succ, ih]
      simp [List.filter_cons, hP]
    · have hs : scanMatches c v (r :: rest) 0 = (scanMatches c v rest 0).map (· + 1) := by
        simp [scanMatches, hP, scanMatches_shift c v rest 0]
      rw [hs, ← List.map_reverse, List.foldl_map, foldl_eraseIdx_succ, ih]
      simp [List.filter_cons, hP]

theorem scanMatches_nil_filter (c : Nat) (v : JsVal) (l : List Row) :
    ∀ k, scanMatches c v l k = [] →
      l.filter (fun r => !(idsEqual (cellAt r c) v)) = l := by
  induction l with
  | nil => intro k _; rfl
  | cons r rest ih =>
    intro k h
    simp only [scanMatches, List.append_eq_nil] at h
    rcases h with ⟨h1, h2⟩
    have hP : ¬ idsEqual (cellAt r c) v := by
      intro hcc
      simp [hcc] at h1
    simp [List.filter_cons, hP, ih (k + 1) h2]

theorem deleteRows_findRows (hdr : Row) (rest : List Row) (headerName : String)
    (v : JsVal) (c : Nat) (hc : getHeaderIndex (hdr :: rest) headerName = some c) :
    deleteRows (hdr :: rest) (findRowIndicesByHeader (hdr :: rest) headerName v) =
      hdr :: rest.filter (fun r => !(idsEqual (cellAt r c) v)) := by
  have hf : findRowIndicesByHeader (hdr :: rest) headerName v = scanMatches c v rest 2 := by
    simp [findRowIndicesByHeader, hc]
  rw [hf]
  by_cases hemp : scanMatches c v rest 2 = []
  · rw [hemp]
    simp only [deleteRows, List.isEmpty_nil, if_true]
    rw [scanMatches_nil_filter c v rest 2 hemp]
  · have hpw := scanMatches_pairwise c v rest 2
    have h1 : scanMatches c v rest 1 = (scanMatches c v rest 0).map (· + 1) :=
      scanMatches_shift c v rest 0
    have h2 : scanMatches c v rest 2 = (scanMatches c v rest 1).map (· + 1) :=
      scanMatches_shift c v rest 1
    have hne : (scanMatches c v rest 2).isEmpty = false := by
      simp [List.isEmpty_iff, hemp]
    rw [deleteRows, hne]
    simp only [Bool.false_eq_true, if_false]
    rw [sortDesc_of_sorted _ hpw, h2, h1, ← List.map_reverse, ← List.map_reverse,
      List.foldl_map, List.foldl_map]
    simp only [Nat.add_sub_cancel]
    rw [foldl_eraseIdx_succ, erase_scan_eq_filter]

/-- C2: a delete event removes from the ensured activities tab exactly the
data rows whose cell under the `activity_id` header tolerantly equals the
event id's string, and likewise from the segment_efforts tab; the header row
and every non-matching row survive, and a tab without matches is left as it
was (no error).  The descending sort of the matched indices is what makes
the batch deletion independent of index shifting, proved by
`sortDesc_of_sorted` and `erase_scan_eq_filter` above. -/
theorem c2_delete_removes_exactly_matches (st : Store) (evt : Event)
    (ha : Row) (hrest : List Row) (c : Nat)
    (h1 : ensureTabWithHeaders st.activities actHeadersRow = ha :: hrest)
    (hc : getHeaderIndex (ha :: hrest) "activity_id" = some c)
    (he : Row) (herest : List Row) (c' : Nat)
    (h2 : ensureTabWithHeaders st.segment_efforts effHeadersRow = he :: herest)
    (hc' : getHeaderIndex (he :: herest) "activity_id" = some c') :
    processActivityDelete st evt =
      { st with
        activities := some (ha :: hrest.filter
          (fun r => !(idsEqual (cellAt r c) (.str (jsValToString evt.object_id))))),
        segment_efforts := some (he :: herest.filter
          (fun r => !(idsEqual (cellAt r c') (.str (jsValToString evt.object_id))))) } := by
  simp only [processActivityDelete, h1, h2]
  rw [deleteRows_findRows ha hrest "activity_id" _ c hc,
    deleteRows_findRows he herest "activity_id" _ c' hc']

/-- C2 witness: deleting activity 15538647680 removes the scientific-notation
activities row and both matching efforts rows, keeps every other row, and
equals the explicit filtered store. -/
theorem c2_delete_removes_exactly_matches_witness :
    processActivityDelete stDel evDelete =
      { stDel with
        activities := some (actHeadersRow ::
          [[.str "1.553864768e+10", .num ⟨9, 0⟩], [.num ⟨555, 0⟩, .num ⟨9, 0⟩]].filter
            (fun r => !(idsEqual (cellAt r 0) (.str (jsValToString evDelete.object_id))))),
        segment_efforts := some (effHeadersRow ::
          [[.num ⟨15538647680, 0⟩, .num ⟨9, 0⟩], [.str "15538647680"], [.str "777"]].filter
            (fun r => !(idsEqual (cellAt r 0) (.str (jsValToString evDelete.object_id))))) } ∧
    processActivityDelete stDel evDelete =
      { stDel with
        activities := some [actHeadersRow, [.num ⟨555, 0⟩, .num ⟨9, 0⟩]],
        segment_efforts := some [effHeadersRow, [.str "777"]] } :=
  ⟨c2_delete_removes_exactly_matches stDel evDelete actHeadersRow
      [[.str "1.553864768e+10", .num ⟨9, 0⟩], [.num ⟨555, 0⟩, .num ⟨9, 0⟩]] 0 rfl (by decide)
      effHeadersRow
      [[.num ⟨15538647680, 0⟩, .num ⟨9, 0⟩], [.str "15538647680"], [.str "777"]] 0 rfl (by decide),
   by decide⟩

/-! ### C8: the update handler's two phases -/

theorem ensureFresh_preserves_tabs (env : Env) (st : Store) (aid : JsVal) :
    ((ensureFreshAccessToken env st aid).1).activities = st.activities ∧
    ((ensureFreshAccessToken env st aid).1).segment_efforts = st.segment_efforts ∧
    ((ensureFreshAccessToken env st aid).1).inbox = st.inbox := by
  unfold ensureFreshAccessToken
  cases getAthleteAuth st aid with
  | none => exact ⟨rfl, rfl, rfl⟩
  | some auth =>
    dsimp only
    split
    · exact ⟨rfl, rfl, rfl⟩
    · cases env.refresh with
      | none => exact ⟨rfl, rfl, rfl⟩
      | some rd => exact ⟨rfl, rfl, rfl⟩

theorem updateWithRow_eq (env : Env) (s : Store) (evt : Event) (r : Nat)
    (tr : List UpdateEff) (t1 : Tab) (fe : List UpdateEff)
    (happly : applyFastPath (s.activities.getD []) r evt.updates = (t1, fe))
    (st2 : Store) (access aname : JsVal) (tr2 : List TokenEff)
    (hE : ensureFreshAccessToken env { s with activities := some t1 } evt.owner_id =
      (st2, access, aname, tr2)) :
    (jsTruthy access = true →
      (∀ act, env.fetchLite = some act →
        ∀ row, mapActivityRow aname evt.owner_id act = some row →
        updateWithRow env s evt r tr =
          ({ st2 with activities := some (modifyAt (st2.activities.getD []) (r - 1)
              (fun old => overwriteRowCells old row)) },
           tr ++ fe ++ [.overwriteRow r])) ∧
      (env.fetchLite = none → updateWithRow env s evt r tr = (st2, tr ++ fe))) ∧
    (jsTruthy access = false → updateWithRow env s evt r tr = (st2, tr ++ fe)) := by
  have hu : updateWithRow env s evt r tr =
      (if jsTruthy access = false then (st2, tr ++ fe)
       else
        match env.fetchLite with
        | none => (st2, tr ++ fe)
        | some act =>
          match mapActivityRow aname evt.owner_id act with
          | none => (st2, tr ++ fe)
          | some row =>
            ({ st2 with activities := some (modifyAt (st2.activities.getD []) (r - 1)
                (fun old => overwriteRowCells old row)) },
             tr ++ fe ++ [.overwriteRow r])) := by
    unfold updateWithRow
    rw [happly] at *
    simp only [hE]
  constructor
  · intro htok
    constructor
    · intro act hact row hrow
      rw [hu, htok, hact]
      simp [hrow]
    · intro hact
      rw [hu, htok, hact]
      simp
  · intro htok
    rw [hu, htok]
    simp

theorem updateWithRow_trace (env : Env) (s : Store) (evt : Event) (r : Nat)
    (tr : List UpdateEff) :
    ∃ suffix, (updateWithRow env s evt r tr).2 = tr ++ suffix := by
  unfold updateWithRow
  dsimp only
  split
  · exact ⟨_, rfl⟩
  · split
    · exact ⟨_, rfl⟩
    · split
      · exact ⟨_, rfl⟩
      · refine ⟨(applyFastPath (s.activities.getD []) r evt.updates).2 ++
          [.overwriteRow r], ?_⟩
        simp

/-- C8 counterexample: activity 7 has a row and the webhook carries a new
title; the fast path writes the title, but the token refresh yields no
usable token, so the handler returns with no re-fetch and no row overwrite —
the fast-path write is not superseded, refuting the claim's unconditional
slow path. -/
theorem c8_counterexample :
    findActivityRowIndex (some (ensureTabWithHeaders stU.activities actHeadersRow))
        evtU.object_id = some 2 ∧
    processActivityUpdate envU stU evtU =
      ({ stU with activities := some [actHeadersRow, [.str "7", .undef, .undef, .str "New"]] },
       [.fastWrite 2 3 (.str "New")]) := by
  decide

/-- C8 (amended): for an update event whose activity row exists,
`processActivityUpdate` first applies the payload's explicit fields (title,
visibility or private, type or sport_type) to the row's cells, and then
attempts the slow path: it refreshes the token, and provided a usable access
token, a successful re-fetch and a successful remap, overwrites the entire
row with the remapped values (cells beyond the written width surviving),
appending the overwrite effect after the fast-path writes — superseding
them; if the refresh yields no usable token or the re-fetch fails, the
handler returns with only the fast-path writes applied.  If no row exists,
it invokes the create handler, retries the lookup exactly once, and returns
without error if the row is still missing. -/
theorem c8_update_two_phase (env : Env) (st : Store) (evt : Event) :
    (∀ r, findActivityRowIndex (some (ensureTabWithHeaders st.activities actHeadersRow))
        evt.object_id = some r →
      ∀ t1 fe, applyFastPath (ensureTabWithHeaders st.activities actHeadersRow) r
          evt.updates = (t1, fe) →
      ∀ st2 access aname tr2,
        ensureFreshAccessToken env { st with activities := some t1 } evt.owner_id =
          (st2, access, aname, tr2) →
        (jsTruthy access = true →
          (∀ act, env.fetchLite = some act →
            ∀ row, mapActivityRow aname evt.owner_id act = some row →
            processActivityUpdate env st evt =
              ({ st2 with activities := some (modifyAt (st2.activities.getD []) (r - 1)
                  (fun old => overwriteRowCells old row)) },
               fe ++ [.overwriteRow r])) ∧
          (env.fetchLite = none →
            processActivityUpdate env st evt = (st2, fe) ∧ st2.activities = some t1)) ∧
        (jsTruthy access = false →
          processActivityUpdate env st evt = (st2, fe) ∧ st2.activities = some t1)) ∧
    (findActivityRowIndex (some (ensureTabWithHeaders st.activities actHeadersRow))
        evt.object_id = none →
      (findActivityRowIndex (processNewActivity env
          { st with activities := some (ensureTabWithHeaders st.activities actHeadersRow) }
          evt.object_id evt.owner_id).activities evt.object_id = none →
        processActivityUpdate env st evt =
          (processNewActivity env
            { st with activities := some (ensureTabWithHeaders st.activities actHeadersRow) }
            evt.object_id evt.owner_id, [.createCalled])) ∧
      (∀ r, findActivityRowIndex (processNewActivity env
          { st with activities := some (ensureTabWithHeaders st.activities actHeadersRow) }
          evt.object_id evt.owner_id).activities evt.object_id = some r →
        ∃ suffix, (processActivityUpdate env st evt).2 = .createCalled :: suffix)) ∧
    (∀ (old fresh : Row), (overwriteRowCells old fresh).take fresh.length = fresh) := by
  refine ⟨?_, ?_, ?_⟩
  · intro r hfind t1 fe happly st2 access aname tr2 hE
    have hP : processActivityUpdate env st evt =
        updateWithRow env
          { st with activities := some (ensureTabWithHeaders st.activities actHeadersRow) }
          evt r [] := by
      simp only [processActivityUpdate, hfind]
    have hTabs := ensureFresh_preserves_tabs env
      { st with activities := some t1 } evt.owner_id
    rw [hE] at hTabs
    dsimp only at hTabs
    have h := updateWithRow_eq env
      { st with activities := some (ensureTabWithHeaders st.activities actHeadersRow) }
      evt r [] t1 fe happly st2 access aname tr2 hE
    refine ⟨fun htok => ⟨fun act hact row hrow => ?_, fun hact => ?_⟩, fun htok => ?_⟩
    · rw [hP, (h.1 htok).1 act hact row hrow]
      simp
    · rw [hP, (h.1 htok).2 hact]
      exact ⟨by simp, hTabs.1⟩
    · rw [hP, h.2 htok]
      exact ⟨by simp, hTabs.1⟩
  · intro hfind
    constructor
    · intro hfind2
      simp only [processActivityUpdate, hfind, hfind2]
    · intro r hfind2
      have hP : processActivityUpdate env st evt =
          updateWithRow env (processNewActivity env
            { st with activities := some (ensureTabWithHeaders st.activities actHeadersRow) }
            evt.object_id evt.owner_id) evt r [.createCalled] := by
        simp only [processActivityUpdate, hfind, hfind2]
      rw [hP]
      exact updateWithRow_trace env _ evt r [.createCalled]
  · intro old fresh
    exact List.take_left fresh (old.drop fresh.length)

/-- C8 witness: the success path on a store holding activity 123 with a
fresh token: the title fast-write happens first and the full-row overwrite
follows, superseding it. -/
theorem c8_update_two_phase_witness :
    processActivityUpdate envCreate stWith123 evUpdate =
      ({ w8tok.1 with activities := some (modifyAt (w8tok.1.activities.getD []) (2 - 1)
          (fun old => overwriteRowCells old w8row)) },
       w8fast.2 ++ [.overwriteRow 2]) ∧
    w8fast.2 = [.fastWrite 2 3 (.str "New Title")] :=
  ⟨(((c8_update_two_phase envCreate stWith123 evUpdate).1 2 (by decide) w8fast.1 w8fast.2
      rfl w8tok.1 w8tok.2.1 w8tok.2.2.1 w8tok.2.2.2 rfl).1 (by decide)).1 actA rfl w8row
      (by decide),
   by decide⟩

/-! ### C1: create de-duplication and idempotency -/

theorem store_eta (st : Store) (ta te : Tab) (h1 : st.activities = some ta)
    (h2 : st.segment_efforts = some te) :
    ({ st with activities := some ta, segment_efforts := some te } : Store) = st := by
  cases st
  simp_all

theorem processNewActivity_of_mem (env : Env) (st : Store) (objectId ownerId : JsVal)
    (h : jsValToString objectId ∈
      readColumnA (some (ensureTabWithHeaders st.activities actHeadersRow))) :
    processNewActivity env st objectId ownerId =
      { st with activities := some (ensureTabWithHeaders st.activities actHeadersRow),
                segment_efforts := some (ensureTabWithHeaders st.segment_efforts effHeadersRow) } := by
  simp only [processNewActivity]
  rw [if_pos h]

theorem processNewActivity_fixed (env : Env) (S : Store) (objectId ownerId : JsVal)
    (tact tseg : Tab) (h1 : S.activities = some tact) (h2 : S.segment_efforts = some tseg)
    (hmem : jsValToString objectId ∈ readColumnA (some tact)) :
    processNewActivity env S objectId ownerId = S := by
  have hm2 : jsValToString objectId ∈
      readColumnA (some (ensureTabWithHeaders S.activities actHeadersRow)) := by
    rw [h1]
    exact hmem
  rw [processNewActivity_of_mem env S objectId ownerId hm2, h1, h2]
  exact store_eta S tact tseg h1 h2

theorem authScan_ge (rows : List Row) : ∀ (k : Nat) (idS : String) (a : AuthRow),
    authScan rows k idS = some a → k ≤ a.rowIndex := by
  induction rows with
  | nil => intro k idS a h; simp [authScan] at h
  | cons r rest ih =>
    intro k idS a h
    simp only [authScan] at h
    split at h
    · cases h
      simp
    · exact le_trans (Nat.le_succ k) (ih (k + 1) idS a h)

theorem modifyAt_drop_one (l : List α) (n : Nat) (f : α → α) :
    (modifyAt l (n + 1) f).drop 1 = modifyAt (l.drop 1) n f := by
  cases l with
  | nil => rfl
  | cons x xs => rfl

theorem modifyAt_modifyAt (l : List α) : ∀ (i : Nat) (f g : α → α),
    modifyAt (modifyAt l i f) i g = modifyAt l i (fun x => g (f x)) := by
  induction l with
  | nil => intro i f g; rfl
  | cons x xs ih =>
    intro i f g
    cases i with
    | zero => rfl
    | succ n =>
      simp only [modifyAt]
      rw [ih n f g]

theorem writeTokensRow_idem (r : Row) (a b c : JsVal) :
    writeTokensRow (writeTokensRow r a b c) a b c = writeTokensRow r a b c := by
  rcases r with _ | ⟨x, _ | ⟨y, rest⟩⟩ <;> rfl

theorem authScan_after_write (rows : List Row) :
    ∀ (k : Nat) (idS : String) (a : AuthRow), authScan rows k idS = some a →
    ∀ (x y z : JsVal),
    authScan (modifyAt rows (a.rowIndex - k) (fun r => writeTokensRow r x y z)) k idS =
      some ⟨a.rowIndex, a.athlete_name, jsOr x (.str ""), jsOr y (.str ""),
        toNumber (jsOr z (.num (Dec.ofInt 0)))⟩ := by
  induction rows with
  | nil => intro k idS a h; simp [authScan] at h
  | cons r rest ih =>
    intro k idS a h x y z
    simp only [authScan] at h
    by_cases hm : jsValToString (cellAt r 0) = idS
    · rw [if_pos hm] at h
      cases h
      obtain ⟨c0, c1, c2, c3, c4, _⟩ := writeTokensRow_cellAt r x y z
      simp only [Nat.sub_self, modifyAt, authScan, c0, c1, c2, c3, c4, if_pos hm]
    · rw [if_neg hm] at h
      have hge := authScan_ge rest (k + 1) idS a h
      have hidx : a.rowIndex - k = (a.rowIndex - (k + 1)) + 1 := by omega
      rw [hidx]
      simp only [modifyAt, authScan, if_neg hm]
      exact ih (k + 1) idS a h x y z

/-- Calling the token helper a second time on its own output changes nothing:
the store is already written, and the access token and athlete name returned
are the same. -/
theorem efat_idem (env : Env) (st : Store) (aid : JsVal) :
    (ensureFreshAccessToken env ((ensureFreshAccessToken env st aid).1) aid).1 =
      (ensureFreshAccessToken env st aid).1 ∧
    (ensureFreshAccessToken env ((ensureFreshAccessToken env st aid).1) aid).2.1 =
      (ensureFreshAccessToken env st aid).2.1 ∧
    (ensureFreshAccessToken env ((ensureFreshAccessToken env st aid).1) aid).2.2.1 =
      (ensureFreshAccessToken env st aid).2.2.1 := by
  rcases hA : getAthleteAuth st aid with _ | auth
  · have h1 : ensureFreshAccessToken env st aid = (st, .null, .null, []) := by
      simp [ensureFreshAccessToken, hA]
    simp [h1, ensureFreshAccessToken, hA]
  · by_cases hF : tokenIsFresh auth.access_token auth.expires_at env.now
    · have h1 : ensureFreshAccessToken env st aid =
          (st, auth.access_token, auth.athlete_name, []) := by
        simp [ensureFreshAccessToken, hA, hF]
      simp [h1, ensureFreshAccessToken, hA, hF]
    · rcases hR : env.refresh with _ | rd
      · have h1 : ensureFreshAccessToken env st aid =
            (st, .null, auth.athlete_name, [.refreshCall]) := by
          simp [ensureFreshAccessToken, hA, hF, hR]
        simp [h1, ensureFreshAccessToken, hA, hF, hR]
      · have h1 : ensureFreshAccessToken env st aid =
            (writeAthleteTokens st auth.rowIndex rd.access_token rd.refresh_token rd.expires_at,
             rd.access_token, auth.athlete_name,
             [.refreshCall, .writeTokens auth.rowIndex]) := by
          simp [ensureFreshAccessToken, hA, hF, hR]
        have hA' : authScan ((st.athletes.getD []).drop 1) 2 (jsValToString aid) = some auth := hA
        have hge : 2 ≤ auth.rowIndex := authScan_ge _ 2 _ _ hA'
        have hw := authScan_after_write ((st.athletes.getD []).drop 1) 2 (jsValToString aid)
          auth hA' rd.access_token rd.refresh_token rd.expires_at
        have hA2 : getAthleteAuth
            (writeAthleteTokens st auth.rowIndex rd.access_token rd.refresh_token rd.expires_at)
            aid =
            some ⟨auth.rowIndex, auth.athlete_name, jsOr rd.access_token (.str ""),
              jsOr rd.refresh_token (.str ""),
              toNumber (jsOr rd.expires_at (.num (Dec.ofInt 0)))⟩ := by
          show authScan _ 2 (jsValToString aid) = _
          have hath : ((writeAthleteTokens st auth.rowIndex rd.access_token rd.refresh_token
              rd.expires_at).athletes.getD []) =
              modifyAt (st.athletes.getD []) (auth.rowIndex - 1)
                (fun r => writeTokensRow r rd.access_token rd.refresh_token rd.expires_at) := rfl
          rw [hath]
          have hidx : auth.rowIndex - 1 = (auth.rowIndex - 2) + 1 := by omega
          rw [hidx, modifyAt_drop_one]
          exact hw
        rw [h1]
        dsimp only
        by_cases hF2 : tokenIsFresh (jsOr rd.access_token (.str ""))
            (toNumber (jsOr rd.expires_at (.num (Dec.ofInt 0)))) env.now
        · have htr : jsTruthy rd.access_token = true := by
            by_contra hx
            rw [Bool.not_eq_true] at hx
            have hemp : jsOr rd.access_token (.str "") = .str "" := by
              simp [jsOr, hx]
            rw [hemp] at hF2
            simp [tokenIsFresh, jsTruthy] at hF2
          have hOr : jsOr rd.access_token (.str "") = rd.access_token := by
            simp [jsOr, htr]
          have hF2' : tokenIsFresh rd.access_token
              (toNumber (jsOr rd.expires_at (.num (Dec.ofInt 0)))) env.now = true := by
            rw [← hOr]
            exact hF2
          simp [ensureFreshAccessToken, hA2, hF2', hOr]
        · have hfun : (fun x => writeTokensRow (writeTokensRow x rd.access_token
              rd.refresh_token rd.expires_at) rd.access_token rd.refresh_token rd.expires_at) =
              (fun x => writeTokensRow x rd.access_token rd.refresh_token rd.expires_at) := by
            funext x
            exact writeTokensRow_idem x rd.access_token rd.refresh_token rd.expires_at
          have hWW : writeAthleteTokens
              (writeAthleteTokens st auth.rowIndex rd.access_token rd.refresh_token rd.expires_at)
              auth.rowIndex rd.access_token rd.refresh_token rd.expires_at =
              writeAthleteTokens st auth.rowIndex rd.access_token rd.refresh_token
                rd.expires_at := by
            simp only [writeAthleteTokens]
            dsimp only [Option.getD]
            rw [modifyAt_modifyAt, hfun]
          simp [ensureFreshAccessToken, hA2, hF2, hR, hWW]

theorem mapActivityRow_head (n i : JsVal) (a : Activity) (row : List JsVal)
    (h : mapActivityRow n i a = some row) : row.head? = some a.id := by
  unfold mapActivityRow at h
  split at h
  · exact absurd h (by simp)
  · rw [Option.some_inj] at h
    rw [← h]
    rfl

/-- A second run on the output of a run that appended nothing (no token, no
fetch, or remap failure) leaves the store unchanged. -/
theorem processNewActivity_run2_noappend (env : Env) (st1 : Store) (objectId ownerId : JsVal)
    (ta te : Tab)
    (h1 : ((ensureFreshAccessToken env st1 ownerId).1).activities = some ta)
    (h2 : ((ensureFreshAccessToken env st1 ownerId).1).segment_efforts = some te)
    (hmem : jsValToString objectId ∉ readColumnA (some ta))
    (hbranch : jsTruthy (ensureFreshAccessToken env st1 ownerId).2.1 = false ∨
      env.fetchFull = none ∨
      (∃ act, env.fetchFull = some act ∧
        mapActivityRow (ensureFreshAccessToken env st1 ownerId).2.2.1 ownerId act = none)) :
    processNewActivity env ((ensureFreshAccessToken env st1 ownerId).1) objectId ownerId =
      (ensureFreshAccessToken env st1 ownerId).1 := by
  have heta : ({ (ensureFreshAccessToken env st1 ownerId).1 with
      activities := some (ensureTabWithHeaders
        ((ensureFreshAccessToken env st1 ownerId).1).activities actHeadersRow),
      segment_efforts := some (ensureTabWithHeaders
        ((ensureFreshAccessToken env st1 ownerId).1).segment_efforts effHeadersRow) } : Store) =
      (ensureFreshAccessToken env st1 ownerId).1 := by
    rw [h1, h2]
    exact store_eta _ ta te h1 h2
  have hmem' : jsValToString objectId ∉ readColumnA (some (ensureTabWithHeaders
      ((ensureFreshAccessToken env st1 ownerId).1).activities actHeadersRow)) := by
    rw [h1]
    exact hmem
  obtain ⟨e1, e2, e3⟩ := efat_idem env st1 ownerId
  simp only [processNewActivity]
  rw [if_neg hmem', heta, e1, e2, e3]
  rcases hbranch with htok | hfetch | ⟨act, hfetch, hmap⟩
  · rw [if_pos htok]
  · by_cases ht : jsTruthy (ensureFreshAccessToken env st1 ownerId).2.1 = false
    · rw [if_pos ht]
    · rw [if_neg ht, hfetch]
  · by_cases ht : jsTruthy (ensureFreshAccessToken env st1 ownerId).2.1 = false
    · rw [if_pos ht]
    · rw [if_neg ht, hfetch]
      simp only [hmap]

/-- Running the create handler twice for the same event equals running it
once, provided the fetched activity carries the event's id (as it does) and
the activities tab is not an existing-but-headerless empty tab. -/
theorem processNewActivity_idem (env : Env) (st : Store) (objectId ownerId : JsVal)
    (hid : ∀ act, env.fetchFull = some act → jsValToString act.id = jsValToString objectId)
    (hne : st.activities ≠ some []) :
    processNewActivity env (processNewActivity env st objectId ownerId) objectId ownerId =
      processNewActivity env st objectId ownerId := by
  by_cases hmem : jsValToString objectId ∈
      readColumnA (some (ensureTabWithHeaders st.activities actHeadersRow))
  · rw [processNewActivity_of_mem env st objectId ownerId hmem]
    have hmem2 : jsValToString objectId ∈ readColumnA (some (ensureTabWithHeaders
        ({ st with
          activities := some (ensureTabWithHeaders st.activities actHeadersRow),
          segment_efforts := some (ensureTabWithHeaders st.segment_efforts effHeadersRow) } :
          Store).activities actHeadersRow)) := hmem
    rw [processNewActivity_of_mem env _ objectId ownerId hmem2]
    rfl
  · have hpres := ensureFresh_preserves_tabs env
      ({ st with
            activities := some (ensureTabWithHeaders st.activities actHeadersRow),
            segment_efforts := some (ensureTabWithHeaders st.segment_efforts effHeadersRow) } : Store)
      ownerId
    have h1 : ((ensureFreshAccessToken env
        { st with
            activities := some (ensureTabWithHeaders st.activities actHeadersRow),
            segment_efforts := some (ensureTabWithHeaders st.segment_efforts effHeadersRow) }
        ownerId).1).activities =
        some (ensureTabWithHeaders st.activities actHeadersRow) := hpres.1
    have h2 : ((ensureFreshAccessToken env
        { st with
            activities := some (ensureTabWithHeaders st.activities actHeadersRow),
            segment_efforts := some (ensureTabWithHeaders st.segment_efforts effHeadersRow) }
        ownerId).1).segment_efforts =
        some (ensureTabWithHeaders st.segment_efforts effHeadersRow) := hpres.2.1
    by_cases htok : jsTruthy (ensureFreshAccessToken env
        { st with
            activities := some (ensureTabWithHeaders st.activities actHeadersRow),
            segment_efforts := some (ensureTabWithHeaders st.segment_efforts effHeadersRow) }
        ownerId).2.1 = false
    · have hrun1 : processNewActivity env st objectId ownerId =
          (ensureFreshAccessToken env
            { st with
            activities := some (ensureTabWithHeaders st.activities actHeadersRow),
            segment_efforts := some (ensureTabWithHeaders st.segment_efforts effHeadersRow) }
            ownerId).1 := by
        simp only [processNewActivity]
        rw [if_neg hmem, if_pos htok]
      rw [hrun1]
      exact processNewActivity_run2_noappend env _ objectId ownerId _ _ h1 h2 hmem
        (Or.inl htok)
    · rcases hfetch : env.fetchFull with _ | act
      · have hrun1 : processNewActivity env st objectId ownerId =
            (ensureFreshAccessToken env
              { st with
            activities := some (ensureTabWithHeaders st.activities actHeadersRow),
            segment_efforts := some (ensureTabWithHeaders st.segment_efforts effHeadersRow) }
              ownerId).1 := by
          simp only [processNewActivity]
          rw [if_neg hmem, if_neg htok, hfetch]
        rw [hrun1]
        exact processNewActivity_run2_noappend env _ objectId ownerId _ _ h1 h2 hmem
          (Or.inr (Or.inl hfetch))
      · rcases hmap : mapActivityRow (ensureFreshAccessToken env
            { st with
            activities := some (ensureTabWithHeaders st.activities actHeadersRow),
            segment_efforts := some (ensureTabWithHeaders st.segment_efforts effHeadersRow) }
            ownerId).2.2.1 ownerId act with _ | row
        · have hrun1 : processNewActivity env st objectId ownerId =
              (ensureFreshAccessToken env
                { st with
            activities := some (ensureTabWithHeaders st.activities actHeadersRow),
            segment_efforts := some (ensureTabWithHeaders st.segment_efforts
                      effHeadersRow) }
                ownerId).1 := by
            simp only [processNewActivity]
            rw [if_neg hmem, if_neg htok, hfetch]
            simp only [hmap]
          rw [hrun1]
          exact processNewActivity_run2_noappend env _ objectId ownerId _ _ h1 h2 hmem
            (Or.inr (Or.inr ⟨act, hfetch, hmap⟩))
        · -- the appending case: the second run sees the id in column A
          have hta_cons : ∃ h0 rest,
              ensureTabWithHeaders st.activities actHeadersRow = h0 :: rest := by
            rcases hact : st.activities with _ | l
            · exact ⟨actHeadersRow, [], rfl⟩
            · rcases l with _ | ⟨r0, rs⟩
              · exact absurd hact hne
              · exact ⟨r0, rs, rfl⟩
          obtain ⟨h0, rest, hta⟩ := hta_cons
          have hrow_head : row.head? = some act.id := mapActivityRow_head _ _ _ _ hmap
          have hmem2 : jsValToString objectId ∈
              readColumnA (some (ensureTabWithHeaders st.activities actHeadersRow ++ [row])) := by
            rw [hta, ← hid act hfetch]
            simp only [readColumnA, List.cons_append, List.drop_succ_cons, List.drop_zero]
            rw [List.mem_map]
            refine ⟨act.id, ?_, rfl⟩
            rw [List.mem_filterMap]
            exact ⟨row, by simp, hrow_head⟩
          have hrun1 : ∃ S tseg, processNewActivity env st objectId ownerId = S ∧
              S.activities = some (ensureTabWithHeaders st.activities actHeadersRow ++ [row]) ∧
              S.segment_efforts = some tseg := by
            simp only [processNewActivity]
            rw [if_neg hmem, if_neg htok, hfetch]
            simp only [hmap]
            rcases hef : act.segment_efforts.isEmpty
            · simp only [Bool.false_eq_true, if_false]
              rcases hmapM : act.segment_efforts.mapM (mapEffortRow ownerId act) with _ | effRows
              · exact ⟨_, ensureTabWithHeaders st.segment_efforts effHeadersRow, rfl,
                  by simp [h1], h2⟩
              · refine ⟨_, _, rfl, by simp [h1], rfl⟩
            · simp only [if_true]
              exact ⟨_, ensureTabWithHeaders st.segment_efforts effHeadersRow, rfl,
                by simp [h1], h2⟩
          obtain ⟨S, tseg, hS, hSa, hSs⟩ := hrun1
          rw [hS]
          exact processNewActivity_fixed env S objectId ownerId _ tseg hSa hSs hmem2

/-- C1 counterexample: an activities tab that exists but is completely empty
(no header row).  The first create run appends the activity row into sheet
row 1, which the `A2:A` de-dupe scan never reads, so the second run of the
same create event appends a duplicate: processing twice differs from
processing once, although the fetched activity carries the event's id. -/
theorem c1_counterexample :
    envCreate.fetchFull = some actA ∧
    jsValToString actA.id = jsValToString (JsVal.num ⟨123, 0⟩) ∧
    processNewActivity envCreate
        (processNewActivity envCreate stEmptyActivities (.num ⟨123, 0⟩) (.num ⟨9, 0⟩))
        (.num ⟨123, 0⟩) (.num ⟨9, 0⟩) ≠
      processNewActivity envCreate stEmptyActivities (.num ⟨123, 0⟩) (.num ⟨9, 0⟩) := by
  decide

/-- C1 (amended): if the event's object_id (as a string) is already present
in column A of the activities tab as the de-dupe scan reads it (rows 2 and
below), `processNewActivity` changes nothing — given that the
segment_efforts tab exists (a missing one is created with its header row
even on the duplicate path); and processing the same create event twice
equals processing it once, for fetches carrying the event's id, provided the
activities tab is not an existing-but-headerless empty tab (whose first
appended row lands outside the scan). -/
theorem c1_create_dedupe_idempotent (env : Env) (st : Store) (objectId ownerId : JsVal) :
    (∀ te, st.segment_efforts = some te →
      jsValToString objectId ∈
        readColumnA (some (ensureTabWithHeaders st.activities actHeadersRow)) →
      processNewActivity env st objectId ownerId = st) ∧
    ((∀ act, env.fetchFull = some act → jsValToString act.id = jsValToString objectId) →
      st.activities ≠ some [] →
      processNewActivity env (processNewActivity env st objectId ownerId) objectId ownerId =
        processNewActivity env st objectId ownerId) := by
  constructor
  · intro te hte hmem
    rcases hact : st.activities with _ | ta
    · rw [hact] at hmem
      simp [ensureTabWithHeaders, readColumnA] at hmem
    · rw [processNewActivity_of_mem env st objectId ownerId hmem, hact, hte]
      exact store_eta st ta te hact hte
  · intro hid hne
    exact processNewActivity_idem env st objectId ownerId hid hne

/-- C1 witness: a duplicate create event against a store already holding
activity 123 leaves the store untouched, and create is idempotent on a
normally-shaped store. -/
theorem c1_create_dedupe_idempotent_witness :
    processNewActivity envCreate stWith123 (.num ⟨123, 0⟩) (.num ⟨9, 0⟩) = stWith123 ∧
    processNewActivity envCreate
        (processNewActivity envCreate stNormal (.num ⟨123, 0⟩) (.num ⟨9, 0⟩))
        (.num ⟨123, 0⟩) (.num ⟨9, 0⟩) =
      processNewActivity envCreate stNormal (.num ⟨123, 0⟩) (.num ⟨9, 0⟩) :=
  ⟨(c1_create_dedupe_idempotent envCreate stWith123 (.num ⟨123, 0⟩) (.num ⟨9, 0⟩)).1
      [effHeadersRow, [.num ⟨123, 0⟩, .num ⟨9, 0⟩, .num ⟨77, 0⟩]] rfl (by decide),
   (c1_create_dedupe_idempotent envCreate stNormal (.num ⟨123, 0⟩) (.num ⟨9, 0⟩)).2
      (by
        intro act h
        have h2 : actA = act := by
          have : some actA = some act := h
          exact Option.some.inj this
        rw [← h2]
        decide)
      (by decide)⟩

end StravaProxy
